import Mathlib

/-! Request processing of a minimal HTTP/1.0 server (`webServer.cpp`).

A shallow embedding of `readHeader`, `sendLine`, `send404`, `send400`,
`sendFile` and `processConnection` of `src/mxadams/webServer.cpp`, and the
properties of the specification that concern them.

Modelling conventions.

* A `std::string` is a `List Char` (`Bytes`); string positions and lengths are
  natural numbers, `size_t` arithmetic is written out modulo `2 ^ 64` and
  `std::string::npos` is `2 ^ 64 - 1`.
* The socket is a script of the outcomes of the successive `read` calls
  (`ReadResult`); an exhausted script means the peer has closed, so `read`
  returns `0`.
* `quitProgram` is `volatile`: the values the loop condition observes are a
  list of booleans, one per evaluation of `!quitProgram` (missing entries are
  `false`).
* The file system is a map from paths to contents; every system call sees a
  snapshot, and the callers pass one snapshot per call site.
* Everything written to the socket is collected, in order, in one byte list.
  Writes are taken to succeed in full.
* `BUFFER_SIZE` comes from `webServer.h`, which is not part of the sources: it
  is a parameter.
-/

namespace WebServer

/-- A `std::string`, or any other sequence of bytes. -/
abbrev Bytes := List Char

/-- The constant `std::string::npos`, the largest value of `size_t`. -/
def npos : Nat := 2 ^ 64 - 1

/-- Search of `pat` in `s`, the positions of `s` being numbered from `i`:
the least position at which `pat` starts, or `npos`. -/
def findFrom (pat : Bytes) : Bytes → Nat → Nat
  | [], i => if pat.isPrefixOf [] then i else npos
  | c :: cs, i => if pat.isPrefixOf (c :: cs) then i else findFrom pat cs (i + 1)

/-- The call `s.find(pat, pos)`: the first position `≥ pos` where `pat` occurs in `s`,
or `npos` (also when `pos` is past the end). `s.find(c, pos)` for a character
`c` is `find s [c] pos`. -/
def find (s pat : Bytes) (pos : Nat) : Nat :=
  if pos > s.length then npos else findFrom pat (s.drop pos) pos

/-- The call `s.substr(pos, len)`: at most `len` bytes of `s` from position `pos` on.
The C++ function throws when `pos > s.size()`; `readHeader` never calls it so
(see `readHeader_start_le_size`). -/
def substr (s : Bytes) (pos len : Nat) : Bytes :=
  (s.drop pos).take len

/-- One atom of a regular expression without repetition: a literal character or
a bracket range such as `[0-9]`. -/
inductive Atom where
  | lit (c : Char)
  | range (lo hi : Char)
  deriving DecidableEq, Repr

/-- The characters an atom accepts. -/
def Atom.accepts : Atom → Char → Bool
  | .lit c, x => x == c
  | .range lo hi, x => decide (lo ≤ x) && decide (x ≤ hi)

/-- A concatenation of atoms matches a string of the same length, atom by
atom. -/
def seqMatch : List Atom → Bytes → Bool
  | [], [] => true
  | a :: as, c :: cs => a.accepts c && seqMatch as cs
  | _, _ => false

/-- The call `std::regex_match(s, re)` for an alternation `re` of concatenations of
atoms: the whole of `s` matches one alternative. -/
def regex_match (s : Bytes) (re : List (List Atom)) : Bool :=
  re.any fun alt => seqMatch alt s

/-- The regular expression `(file[0-9]\.html)|(image[0-9]\.jpg)` of line 94. -/
def validFilePattern : List (List Atom) :=
  [ [.lit 'f', .lit 'i', .lit 'l', .lit 'e', .range '0' '9',
     .lit '.', .lit 'h', .lit 't', .lit 'm', .lit 'l'],
    [.lit 'i', .lit 'm', .lit 'a', .lit 'g', .lit 'e', .range '0' '9',
     .lit '.', .lit 'j', .lit 'p', .lit 'g'] ]

/-- The outcome of one call `read(sockFd, buffer, BUFFER_SIZE - 1)`: the bytes
placed in the buffer (`bytesRead` is their number, `0` when there are none), or
a negative return value. -/
inductive ReadResult where
  | data (bytes : Bytes)
  | error
  deriving DecidableEq, Repr

/-- A file system snapshot: the contents of the file at a path, `none` when
`stat` and `open` fail on it. -/
abbrev FileSystem := Bytes → Option Bytes

/-- A system call on the file system, with the path it is given. -/
inductive FsCall where
  | statCall (path : Bytes)
  | openCall (path : Bytes)
  deriving DecidableEq, Repr

/-- The header terminator searched for on line 69. -/
def CRLFCRLF : Bytes := ['\r', '\n', '\r', '\n']

/-- The read loop of `readHeader` (lines 57 to 74), started with the bytes
accumulated so far in `request`. `none` is one of the two `return 400` inside
the loop; `some request` is the buffer with which the loop is left. -/
def readLoop : List ReadResult → List Bool → Bytes → Option Bytes
  | [], quits, request =>
    if quits.headD false then some request
    else none
  | .error :: _, quits, request =>
    if quits.headD false then some request
    else none
  | .data buffer :: reads, quits, request =>
    if quits.headD false then some request
    else if buffer.length = 0 then none
    else
      let request := request ++ buffer
      let headerEnd := find request CRLFCRLF 0
      if headerEnd ≠ npos then some (substr request 0 headerEnd)
      else readLoop reads quits.tail request

/-- What `readHeader` hands back: the returned status code, the value of the
reference parameter `filename` on return, and the file system calls made. -/
structure HeaderResult where
  status : Nat
  filename : Bytes
  calls : List FsCall
  deriving DecidableEq, Repr

/-- Lines 76 to 106 of `readHeader`: the classification of the accumulated
`request`. `filename` is the value the reference parameter has on entry. -/
def parseRequest (fs : FileSystem) (request filename : Bytes) : HeaderResult :=
  if substr request 0 3 ≠ ['G', 'E', 'T'] then ⟨400, filename, []⟩
  else
    let start := (find request [' '] 0 + 1) % 2 ^ 64
    let end_ := find request [' '] start
    if start = npos ∨ end_ = npos then ⟨400, filename, []⟩
    else
      let filename := substr request start ((end_ + 2 ^ 64 - start) % 2 ^ 64)
      let filename :=
        if filename ≠ [] ∧ filename.head? = some '/' then substr filename 1 npos
        else filename
      if ¬ regex_match filename validFilePattern then ⟨404, filename, []⟩
      else
        let filepath := "data/".toList ++ filename
        if fs filepath = none then ⟨404, filename, [.statCall filepath]⟩
        else ⟨200, filename, [.statCall filepath]⟩

/-- The function `readHeader(sockFd, filename)`: `reads` scripts the socket, `quits` the
observed values of `quitProgram`, `fs` is the file system at the time of the
`stat` of line 101. -/
def readHeader (reads : List ReadResult) (quits : List Bool) (fs : FileSystem)
    (filename : Bytes) : HeaderResult :=
  match readLoop reads quits [] with
  | none => ⟨400, filename, []⟩
  | some request => parseRequest fs request filename

/-- The function `sendLine(socketFd, stringToSend)`: the line and its terminator are
appended to what the socket has received. -/
def sendLine (out stringToSend : Bytes) : Bytes :=
  out ++ (stringToSend ++ ['\r', '\n'])

/-- The function `send404(sockFd)`: the four lines of the 404 response. -/
def send404 (out : Bytes) : Bytes :=
  let out := sendLine out "HTTP/1.0 404 Not Found".toList
  let out := sendLine out "Content-Type: text/html".toList
  let out := sendLine out []
  sendLine out
    ("<html><body><h1>404 Not Found</h1><p>The requested file was not ".toList ++
      "found on this server.</p></body></html>".toList)

/-- The function `send400(sockFd)`: the four lines of the 400 response. -/
def send400 (out : Bytes) : Bytes :=
  let out := sendLine out "HTTP/1.0 400 Bad Request".toList
  let out := sendLine out "Content-Type: text/html".toList
  let out := sendLine out []
  sendLine out
    ("<html><body><h1>400 Bad Request</h1><p>Your browser sent a ".toList ++
      "request that this server could not understand.</p></body></html>".toList)

/-- Lines 165 to 172 of `sendFile`: the content type chosen for a file name. -/
def contentTypeOf (filename : Bytes) : Bytes :=
  if find filename ".html".toList 0 ≠ npos then "text/html".toList
  else if find filename ".jpg".toList 0 ≠ npos then "image/jpeg".toList
  else "application/octet-stream".toList

/-- The function `std::to_string` on a non-negative size. -/
def to_string (n : Nat) : Bytes := Nat.toDigits 10 n

/-- The copy loop of `sendFile` (lines 191 to 193): `unread` is what the file
descriptor has not delivered yet; each `read` takes up to `BUFFER_SIZE` bytes
of it and the loop ends at the first `read` that returns nothing. The first
argument bounds the number of iterations. -/
def copyLoop (BUFFER_SIZE : Nat) : Nat → Bytes → Bytes → Bytes
  | 0, _, out => out
  | fuel + 1, unread, out =>
    let buffer := unread.take BUFFER_SIZE
    if buffer.length > 0 then
      copyLoop BUFFER_SIZE fuel (unread.drop BUFFER_SIZE) (out ++ buffer)
    else out

/-- What a send operation leaves behind: the bytes on the socket and the file
system calls made. -/
structure SendResult where
  out : Bytes
  calls : List FsCall
  deriving DecidableEq, Repr

/-- The function `sendFile(sockFd, filename)`: `fsStat` is the file system at the `stat` of
line 158 and `fsOpen` at the `open` of line 183; the socket has received `out`
so far. The copy loop runs for at most one iteration per byte of the file and
one more, which is what it needs when `BUFFER_SIZE > 0` (see
`copyLoop_eq`). -/
def sendFile (BUFFER_SIZE : Nat) (fsStat fsOpen : FileSystem) (out filename : Bytes) :
    SendResult :=
  let filepath := "data/".toList ++ filename
  match fsStat filepath with
  | none => ⟨send404 out, [.statCall filepath]⟩
  | some statted =>
    let contentType := contentTypeOf filename
    let out := sendLine out "HTTP/1.0 200 OK".toList
    let out := sendLine out ("Content-Type: ".toList ++ contentType)
    let out := sendLine out ("Content-Length: ".toList ++ to_string statted.length)
    let out := sendLine out []
    match fsOpen filepath with
    | none => ⟨out, [.statCall filepath, .openCall filepath]⟩
    | some contents =>
      ⟨copyLoop BUFFER_SIZE (contents.length + 1) contents out,
        [.statCall filepath, .openCall filepath]⟩

/-- What `processConnection` does: its return value, the bytes it wrote to the
socket and its file system calls. -/
structure ConnectionResult where
  ret : Nat
  out : Bytes
  calls : List FsCall
  deriving DecidableEq, Repr

/-- The function `processConnection(sockFd)`. `fsHeader`, `fsStat` and `fsOpen` are the file
system at the `stat` of `readHeader`, at the `stat` of `sendFile` and at its
`open`. -/
def processConnection (BUFFER_SIZE : Nat) (reads : List ReadResult) (quits : List Bool)
    (fsHeader fsStat fsOpen : FileSystem) : ConnectionResult :=
  let r := readHeader reads quits fsHeader []
  let filename := r.filename
  let statusCode := r.status
  if statusCode = 200 then
    let s := sendFile BUFFER_SIZE fsStat fsOpen [] filename
    ⟨0, s.out, r.calls ++ s.calls⟩
  else if statusCode = 400 then ⟨0, send400 [], r.calls⟩
  else if statusCode = 404 then ⟨0, send404 [], r.calls⟩
  else ⟨0, send400 [], r.calls⟩

/-! ## Notions of the specification -/

/-- The ten ASCII digits. -/
def digits : List Char := ['0', '1', '2', '3', '4', '5', '6', '7', '8', '9']

/-- The names `file<d>.html`, one per digit. -/
def fileNames : List Bytes := digits.map fun d => "file".toList ++ d :: ".html".toList

/-- The names `image<d>.jpg`, one per digit. -/
def imageNames : List Bytes := digits.map fun d => "image".toList ++ d :: ".jpg".toList

/-- The twenty names of the whitelist. -/
def whitelist : List Bytes := fileNames ++ imageNames

/-- A request target with one leading `/` removed when there is one. -/
def stripSlash : Bytes → Bytes
  | '/' :: rest => rest
  | target => target

/-- The shutdown flag is clear at every observation. -/
def flagClear (quits : List Bool) : Prop := ∀ q ∈ quits, q = false

/-- The chunks that successive reads deliver are non-empty. -/
def nonEmptyChunks (chunks : List Bytes) : Prop := ∀ c ∈ chunks, c ≠ []

/-- The first three bytes of a header terminator: a header followed by them
holds no terminator exactly when no terminator begins inside that header. -/
def CRLFCR : Bytes := ['\r', '\n', '\r']

/-- The bytes `sendFile` writes before the body when the `stat` succeeds. -/
def successHeader (contentType : Bytes) (size : Nat) : Bytes :=
  "HTTP/1.0 200 OK\r\nContent-Type: ".toList ++ contentType ++
    "\r\nContent-Length: ".toList ++ to_string size ++ "\r\n\r\n".toList

/-- The output `out` of a send operation starts with the 200 status line and
the header `Content-Type: contentType`. -/
def reportsContentType (out contentType : Bytes) : Prop :=
  "HTTP/1.0 200 OK\r\nContent-Type: ".toList ++ contentType ++ "\r\n".toList <+: out

/-- A file system whose only file is `data/file1.html`, holding `hello`. -/
def fsFile1 : FileSystem := fun path =>
  if path = "data/file1.html".toList then some "hello".toList else none

/-- A file system in which every path names an empty file. -/
def fsEverything : FileSystem := fun _ => some []

/-- A file system holding `data/a.html.jpg` and `data/a.htmlx`, three bytes
each. -/
def fsOdd : FileSystem := fun path =>
  if path = "data/a.html.jpg".toList ∨ path = "data/a.htmlx".toList then some "abc".toList
  else none

/-- The labels of the `switch` of `processConnection` (lines 205 to 219). -/
inductive SwitchCase where
  | case200
  | case400
  | case404
  | caseDefault
  deriving DecidableEq, Repr

/-- The label that the `switch` of `processConnection` selects for a status
code. -/
def switchCase (statusCode : Nat) : SwitchCase :=
  if statusCode = 200 then .case200
  else if statusCode = 400 then .case400
  else if statusCode = 404 then .case404
  else .caseDefault

/-- The bytes of the 400 response. -/
def response400 : Bytes :=
  ("HTTP/1.0 400 Bad Request\r\nContent-Type: text/html\r\n\r\n" ++
    "<html><body><h1>400 Bad Request</h1><p>Your browser sent a request that " ++
    "this server could not understand.</p></body></html>\r\n").toList

/-- The bytes of the 404 response. -/
def response404 : Bytes :=
  ("HTTP/1.0 404 Not Found\r\nContent-Type: text/html\r\n\r\n" ++
    "<html><body><h1>404 Not Found</h1><p>The requested file was not found on " ++
    "this server.</p></body></html>\r\n").toList

/-- The bytes of a response made of the given lines, each followed by CR LF. -/
def crlfLines (lines : List Bytes) : Bytes :=
  (lines.map fun line => line ++ ['\r', '\n']).flatten

/-- The number that a string of ASCII digits denotes in base ten, read from the
left. -/
def decimalValue (s : Bytes) : Nat :=
  s.foldl (fun value c => 10 * value + (c.toNat - '0'.toNat)) 0

/-! ## Searching -/

theorem isPrefixOf_iff (pat s : Bytes) : pat.isPrefixOf s = true ↔ pat <+: s :=
  List.isPrefixOf_iff_prefix

theorem findFrom_cons_pos (pat : Bytes) (c : Char) (cs : Bytes) (i : Nat)
    (h : pat.isPrefixOf (c :: cs) = true) : findFrom pat (c :: cs) i = i := by
  simp [findFrom, h]

theorem findFrom_cons_neg (pat : Bytes) (c : Char) (cs : Bytes) (i : Nat)
    (h : ¬ pat.isPrefixOf (c :: cs) = true) :
    findFrom pat (c :: cs) i = findFrom pat cs (i + 1) := by
  simp [findFrom, h]

/-- A search that succeeds found room for the pattern. -/
theorem findFrom_length_le (pat : Bytes) :
    ∀ (s : Bytes) (i : Nat), findFrom pat s i ≠ npos → pat.length ≤ s.length := by
  intro s
  induction s with
  | nil =>
    intro i h
    by_cases hp : pat.isPrefixOf [] = true
    · have := (isPrefixOf_iff pat []).1 hp
      simpa using this.length_le
    · simp [findFrom, hp] at h
  | cons c cs ih =>
    intro i h
    by_cases hp : pat.isPrefixOf (c :: cs) = true
    · exact ((isPrefixOf_iff pat _).1 hp).length_le
    · simp only [findFrom, hp] at h
      have := ih (i + 1) (by simpa using h)
      simp only [List.length_cons]
      omega

/-- The value of a successful search is a position inside the string. -/
theorem findFrom_le (pat : Bytes) :
    ∀ (s : Bytes) (i : Nat), findFrom pat s i ≠ npos → findFrom pat s i ≤ i + s.length := by
  intro s
  induction s with
  | nil =>
    intro i h
    by_cases hp : pat.isPrefixOf [] = true
    · simp [findFrom, hp]
    · simp [findFrom, hp] at h
  | cons c cs ih =>
    intro i h
    by_cases hp : pat.isPrefixOf (c :: cs) = true
    · simp [findFrom, hp]
    · simp only [findFrom, hp] at h ⊢
      have := ih (i + 1) (by simpa using h)
      simp only [List.length_cons]
      have h2 : findFrom pat cs (i + 1) ≤ i + 1 + cs.length := this
      simp only [Bool.false_eq_true, if_false]
      omega

/-- A pattern found in a string is found at the same place when more bytes
follow. -/
theorem findFrom_append (pat t : Bytes) :
    ∀ (s : Bytes) (i : Nat), findFrom pat s i ≠ npos →
      findFrom pat (s ++ t) i = findFrom pat s i := by
  intro s
  induction s with
  | nil =>
    intro i h
    by_cases hp : pat.isPrefixOf [] = true
    · have hnil : pat = [] := by
        have := (isPrefixOf_iff pat []).1 hp
        exact List.prefix_nil.1 this
      subst hnil
      cases t <;> simp [findFrom]
    · simp [findFrom, hp] at h
  | cons c cs ih =>
    intro i h
    by_cases hp : pat.isPrefixOf (c :: cs) = true
    · have hp2 : pat.isPrefixOf (c :: cs ++ t) = true :=
        (isPrefixOf_iff _ _).2 (((isPrefixOf_iff _ _).1 hp).trans (List.prefix_append _ _))
      have hp3 : pat.isPrefixOf (c :: (cs ++ t)) = true := by simpa using hp2
      simp [findFrom, hp, hp3]
    · have h1 : findFrom pat cs (i + 1) ≠ npos := by
        simp only [findFrom, hp] at h
        simpa using h
      have hlen := findFrom_length_le pat cs (i + 1) h1
      have hp3 : ¬ pat.isPrefixOf (c :: (cs ++ t)) = true := by
        intro hq
        apply hp
        have hq2 : pat <+: (c :: cs) ++ t := by
          have := (isPrefixOf_iff _ _).1 hq
          simpa using this
        have : pat <+: c :: cs :=
          List.prefix_of_prefix_length_le hq2 (List.prefix_append _ _)
            (by simp only [List.length_cons]; omega)
        exact (isPrefixOf_iff _ _).2 this
      rw [List.cons_append, findFrom_cons_neg _ _ _ _ hp3, findFrom_cons_neg _ _ _ _ hp]
      exact ih (i + 1) h1

/-- Without an occurrence of the pattern the search gives `npos`. -/
theorem findFrom_without_occurrence (pat : Bytes) :
    ∀ (s : Bytes) (i : Nat), ¬ pat <:+: s → findFrom pat s i = npos := by
  intro s
  induction s with
  | nil =>
    intro i h
    have hp : ¬ pat.isPrefixOf [] = true := fun hp =>
      h ((isPrefixOf_iff _ _).1 hp).isInfix
    simp [findFrom, hp]
  | cons c cs ih =>
    intro i h
    have hp : ¬ pat.isPrefixOf (c :: cs) = true := fun hp =>
      h ((isPrefixOf_iff _ _).1 hp).isInfix
    have hcs : ¬ pat <:+: cs := fun hi =>
      h (hi.trans (List.suffix_cons c cs).isInfix)
    simp only [findFrom, hp, Bool.false_eq_true, if_false]
    exact ih (i + 1) hcs

/-- The search stops at the first position where the pattern starts. -/
theorem findFrom_first (pat w : Bytes) (hw : pat <+: w) :
    ∀ (u : Bytes) (i : Nat), (∀ j, j < u.length → ¬ pat <+: (u ++ w).drop j) →
      findFrom pat (u ++ w) i = i + u.length := by
  intro u
  induction u with
  | nil =>
    intro i _
    have hp : pat.isPrefixOf w = true := (isPrefixOf_iff _ _).2 hw
    cases w with
    | nil => simp [findFrom, hp]
    | cons c cs => simp [findFrom, hp]
  | cons c cs ih =>
    intro i h
    have h0 : ¬ pat.isPrefixOf (c :: (cs ++ w)) = true := fun hp =>
      h 0 (by simp) (by simpa using (isPrefixOf_iff _ _).1 hp)
    have hrest : ∀ j, j < cs.length → ¬ pat <+: (cs ++ w).drop j := by
      intro j hj
      have := h (j + 1) (by simpa using hj)
      simpa using this
    rw [List.cons_append, findFrom_cons_neg _ _ _ _ h0, ih (i + 1) hrest, List.length_cons]
    omega

/-- An occurrence of the pattern is found, unless the search reports the
position `npos` itself. -/
theorem findFrom_with_occurrence (pat : Bytes) :
    ∀ (s : Bytes) (i : Nat), pat <:+: s → i + s.length < npos →
      findFrom pat s i ≠ npos := by
  intro s
  induction s with
  | nil =>
    intro i h hlen
    have hnil : pat = [] := List.infix_nil.1 h
    subst hnil
    simp only [findFrom, List.isPrefixOf, if_true]
    simp only [List.length_nil] at hlen
    omega
  | cons c cs ih =>
    intro i h hlen
    simp only [List.length_cons] at hlen
    by_cases hp : pat.isPrefixOf (c :: cs) = true
    · simp only [findFrom, hp, if_true]
      omega
    · simp only [findFrom, hp, Bool.false_eq_true, if_false]
      have hcs : pat <:+: cs := by
        rcases List.infix_cons_iff.1 h with h1 | h1
        · exact absurd ((isPrefixOf_iff _ _).2 h1) hp
        · exact h1
      exact ih (i + 1) hcs (by omega)

theorem find_zero (s pat : Bytes) : find s pat 0 = findFrom pat s 0 := by
  simp [find]

theorem find_append (s t pat : Bytes) (h : find s pat 0 ≠ npos) :
    find (s ++ t) pat 0 = find s pat 0 := by
  rw [find_zero] at h ⊢
  rw [find_zero]
  exact findFrom_append pat t s 0 h

theorem find_le (s pat : Bytes) (h : find s pat 0 ≠ npos) : find s pat 0 ≤ s.length := by
  rw [find_zero] at h ⊢
  simpa using findFrom_le pat s 0 h

theorem find_without_occurrence (s pat : Bytes) (h : ¬ pat <:+: s) : find s pat 0 = npos := by
  rw [find_zero]
  exact findFrom_without_occurrence pat s 0 h

theorem find_with_occurrence (s pat : Bytes) (h : pat <:+: s) (hlen : s.length < npos) :
    find s pat 0 ≠ npos := by
  rw [find_zero]
  exact findFrom_with_occurrence pat s 0 h (by omega)

/-- A prefix of a string without the pattern is without the pattern. -/
theorem find_prefix_npos (s t pat : Bytes) (h : find (s ++ t) pat 0 = npos) :
    find s pat 0 = npos := by
  by_contra hs
  have := find_append s t pat hs
  exact hs (this ▸ h)

theorem substr_append (s t : Bytes) (k : Nat) (h : k ≤ s.length) :
    substr (s ++ t) 0 k = substr s 0 k := by
  simp only [substr, List.drop_zero]
  exact List.take_append_of_le_length h

/-! ## The read loop -/

theorem readLoop_data (buffer : Bytes) (reads : List ReadResult) (quits : List Bool)
    (request : Bytes) :
    readLoop (ReadResult.data buffer :: reads) quits request =
      if quits.headD false then some request
      else if buffer.length = 0 then none
      else if find (request ++ buffer) CRLFCRLF 0 ≠ npos then
        some (substr (request ++ buffer) 0 (find (request ++ buffer) CRLFCRLF 0))
      else readLoop reads quits.tail (request ++ buffer) := rfl

theorem readLoop_error (reads : List ReadResult) (quits : List Bool) (request : Bytes) :
    readLoop (ReadResult.error :: reads) quits request =
      if quits.headD false then some request else none := rfl

/-- A shutdown flag that is never seen set is as good as no observation. -/
theorem readLoop_clear :
    ∀ (reads : List ReadResult) (quits : List Bool) (request : Bytes),
      (∀ q ∈ quits, q = false) → readLoop reads quits request = readLoop reads [] request := by
  intro reads
  induction reads with
  | nil =>
    intro quits request hq
    cases quits with
    | nil => rfl
    | cons q qs => simp [readLoop, hq q (by simp)]
  | cons r reads ih =>
    intro quits request hq
    have hhead : quits.headD false = false := by
      cases quits with
      | nil => rfl
      | cons q qs => simpa using hq q (by simp)
    have htail : ∀ q ∈ quits.tail, q = false := fun q hmem =>
      hq q (List.mem_of_mem_tail hmem)
    cases r with
    | error => rw [readLoop_error, readLoop_error, hhead]; rfl
    | data buffer =>
      rw [readLoop_data, readLoop_data, hhead, ih quits.tail _ htail]
      rfl

/-- The loop on a script that starts with non-empty chunks: it stops with the
bytes before the first terminator as soon as the accumulated bytes hold one,
and goes on with the rest of the script otherwise. -/
theorem readLoop_chunks (rest : List ReadResult) :
    ∀ (chunks : List Bytes) (request : Bytes), (∀ c ∈ chunks, c ≠ []) →
      find request CRLFCRLF 0 = npos →
      readLoop (chunks.map ReadResult.data ++ rest) [] request =
        if find (request ++ chunks.flatten) CRLFCRLF 0 ≠ npos then
          some (substr (request ++ chunks.flatten) 0
            (find (request ++ chunks.flatten) CRLFCRLF 0))
        else readLoop rest [] (request ++ chunks.flatten) := by
  intro chunks
  induction chunks with
  | nil =>
    intro request _ hreq
    simp [hreq]
  | cons c cs ih =>
    intro request hne hreq
    have hc : c.length ≠ 0 := by
      have := hne c (by simp)
      simpa using this
    have hcs : ∀ x ∈ cs, x ≠ [] := fun x hx => hne x (by simp [hx])
    rw [List.map_cons, List.cons_append, readLoop_data, List.flatten_cons]
    simp only [List.headD_nil, hc, List.tail_nil, Bool.false_eq_true, if_false]
    by_cases hfound : find (request ++ c) CRLFCRLF 0 = npos
    · rw [if_neg (by simpa using hfound), ih (request ++ c) hcs hfound]
      simp only [List.append_assoc]
    · have happ := find_append (request ++ c) cs.flatten CRLFCRLF hfound
      have hle := find_le (request ++ c) CRLFCRLF hfound
      simp only [List.append_assoc] at happ
      rw [if_pos hfound, happ, if_pos (by simpa using hfound)]
      have := substr_append (request ++ c) cs.flatten _ hle
      simp only [List.append_assoc] at this
      rw [this]

/-- A script whose bytes hold no terminator ends in one of the two
`return 400` of the loop. -/
theorem readLoop_incomplete (ending : List ReadResult)
    (hend : ending = [] ∨ ending.head? = some ReadResult.error) :
    ∀ (chunks : List Bytes) (request : Bytes),
      find (request ++ chunks.flatten) CRLFCRLF 0 = npos →
      readLoop (chunks.map ReadResult.data ++ ending) [] request = none := by
  intro chunks
  induction chunks with
  | nil =>
    intro request _
    rcases hend with h | h
    · subst h; rfl
    · cases ending with
      | nil => simp at h
      | cons r rs =>
        simp only [List.head?_cons, Option.some.injEq] at h
        subst h
        rfl
  | cons c cs ih =>
    intro request h
    simp only [List.flatten_cons] at h
    by_cases hc : c.length = 0
    · rw [List.map_cons, List.cons_append, readLoop_data]
      simp [hc]
    · have h1 : find (request ++ c) CRLFCRLF 0 = npos := by
        apply find_prefix_npos (request ++ c) cs.flatten
        simpa using h
      rw [List.map_cons, List.cons_append, readLoop_data]
      simp only [List.headD_nil, hc, List.tail_nil, Bool.false_eq_true, if_false]
      rw [if_neg (by simpa using h1)]
      apply ih
      simpa using h

/-- With the flag clear, `readHeader` on a chunked stream followed by peer
close is a function of the bytes of the stream. -/
theorem readHeader_chunks (chunks : List Bytes) (quits : List Bool) (fs : FileSystem)
    (filename : Bytes) (hne : nonEmptyChunks chunks) (hq : flagClear quits) :
    readHeader (chunks.map ReadResult.data) quits fs filename =
      if find chunks.flatten CRLFCRLF 0 ≠ npos then
        parseRequest fs (substr chunks.flatten 0 (find chunks.flatten CRLFCRLF 0)) filename
      else ⟨400, filename, []⟩ := by
  have h := readLoop_chunks [] chunks [] hne (by decide)
  simp only [List.append_nil, List.nil_append] at h
  unfold readHeader
  rw [readLoop_clear _ _ _ hq, h]
  by_cases hf : find chunks.flatten CRLFCRLF 0 = npos
  · rw [if_neg (by simpa using hf), if_neg (by simpa using hf)]
    rfl
  · rw [if_pos hf, if_pos hf]

/-- The terminator that follows a header in which no terminator begins is the
first of the stream. -/
theorem find_terminator (h tail : Bytes) (hterm : ¬ CRLFCRLF <:+: h ++ CRLFCR) :
    find (h ++ CRLFCRLF ++ tail) CRLFCRLF 0 = h.length := by
  rw [find_zero, List.append_assoc, findFrom_first CRLFCRLF (CRLFCRLF ++ tail)
    (List.prefix_append _ _) h 0]
  · omega
  · intro j hj hpre
    apply hterm
    rw [List.drop_append_of_le_length (Nat.le_of_lt hj)] at hpre
    have h1 : CRLFCRLF <+: (h.drop j ++ CRLFCR) ++ ('\n' :: tail) := by
      simpa [CRLFCRLF, CRLFCR] using hpre
    have h2 : CRLFCRLF <+: h.drop j ++ CRLFCR := by
      apply List.prefix_of_prefix_length_le h1 (List.prefix_append _ _)
      simp only [List.length_append, List.length_drop, CRLFCRLF, CRLFCR, List.length_cons,
        List.length_nil]
      omega
    have h3 : h.drop j ++ CRLFCR <:+ h ++ CRLFCR := by
      refine ⟨h.take j, ?_⟩
      rw [← List.append_assoc, List.take_append_drop]
    exact h2.isInfix.trans h3.isInfix

/-- With the flag clear, a stream that starts with a header and its terminator
is classified by `parseRequest` on that header. -/
theorem readHeader_stream (chunks : List Bytes) (quits : List Bool) (fs : FileSystem)
    (filename h tail : Bytes) (hne : nonEmptyChunks chunks) (hq : flagClear quits)
    (hs : chunks.flatten = h ++ CRLFCRLF ++ tail) (hterm : ¬ CRLFCRLF <:+: h ++ CRLFCR)
    (hlen : h.length < npos) :
    readHeader (chunks.map ReadResult.data) quits fs filename = parseRequest fs h filename := by
  rw [readHeader_chunks chunks quits fs filename hne hq, hs, find_terminator h tail hterm,
    if_pos (by omega)]
  congr 1
  simp [substr, List.append_assoc]

/-! ## The request line -/

theorem findFrom_char (c : Char) (v : Bytes) :
    ∀ (u : Bytes) (i : Nat), c ∉ u → findFrom [c] (u ++ c :: v) i = i + u.length := by
  intro u
  induction u with
  | nil => intro i _; simp [findFrom, List.isPrefixOf]
  | cons x xs ih =>
    intro i h
    have hx : ¬ x = c := fun e => h (by simp [e])
    have hxs : c ∉ xs := fun hm => h (by simp [hm])
    have hp : ¬ List.isPrefixOf [c] (x :: (xs ++ c :: v)) = true := by
      simp [List.isPrefixOf, Ne.symm hx]
    rw [List.cons_append, findFrom_cons_neg _ _ _ _ hp, ih (i + 1) hxs, List.length_cons]
    omega

/-- A successful search reports a position at or after its starting point. -/
theorem findFrom_ge (pat : Bytes) :
    ∀ (s : Bytes) (i : Nat), findFrom pat s i ≠ npos → i ≤ findFrom pat s i := by
  intro s
  induction s with
  | nil =>
    intro i h
    by_cases hp : pat.isPrefixOf [] = true
    · simp [findFrom, hp]
    · simp [findFrom, hp] at h
  | cons c cs ih =>
    intro i h
    by_cases hp : pat.isPrefixOf (c :: cs) = true
    · rw [findFrom_cons_pos _ _ _ _ hp]
    · rw [findFrom_cons_neg _ _ _ _ hp] at h ⊢
      have := ih (i + 1) h
      omega

/-- When `readHeader` reaches line 88, `start` is a position of `request`, so
that `substr` does not throw, and `end` is not before `start`, so that
`end - start` does not wrap. -/
theorem readHeader_start_le_size (request : Bytes)
    (h : ¬ ((find request [' '] 0 + 1) % 2 ^ 64 = npos ∨
      find request [' '] ((find request [' '] 0 + 1) % 2 ^ 64) = npos)) :
    (find request [' '] 0 + 1) % 2 ^ 64 ≤ request.length ∧
      (find request [' '] 0 + 1) % 2 ^ 64 ≤
        find request [' '] ((find request [' '] 0 + 1) % 2 ^ 64) := by
  have h2 : find request [' '] ((find request [' '] 0 + 1) % 2 ^ 64) ≠ npos :=
    fun e => h (Or.inr e)
  generalize (find request [' '] 0 + 1) % 2 ^ 64 = start at h2 ⊢
  unfold find at h2 ⊢
  by_cases hs : start > request.length
  · rw [if_pos hs] at h2
    exact absurd rfl h2
  · rw [if_neg hs] at h2 ⊢
    exact ⟨by omega, findFrom_ge _ _ _ h2⟩

theorem findFrom_char_none (c : Char) :
    ∀ (s : Bytes) (i : Nat), c ∉ s → findFrom [c] s i = npos := by
  intro s
  induction s with
  | nil => intro i _; simp [findFrom, List.isPrefixOf]
  | cons x xs ih =>
    intro i h
    have hx : ¬ x = c := fun e => h (by simp [e])
    have hxs : c ∉ xs := fun hm => h (by simp [hm])
    have hp : ¬ List.isPrefixOf [c] (x :: xs) = true := by
      simp [List.isPrefixOf, Ne.symm hx]
    rw [findFrom_cons_neg _ _ _ _ hp, ih (i + 1) hxs]

theorem substr_three (s : Bytes) : substr s 0 3 = ['G', 'E', 'T'] ↔ ['G', 'E', 'T'] <+: s := by
  constructor
  · intro h
    refine ⟨s.drop 3, ?_⟩
    have := List.take_append_drop 3 s
    simp only [substr, List.drop_zero] at h
    rw [h] at this
    exact this
  · rintro ⟨r, rfl⟩
    rfl

/-- Removing the leading `/` the way lines 89 to 91 do it. -/
theorem strip_eq (t : Bytes) (hlen : t.length < npos) :
    (if t ≠ [] ∧ t.head? = some '/' then substr t 1 npos else t) = stripSlash t := by
  cases t with
  | nil => rfl
  | cons x xs =>
    by_cases hx : x = '/'
    · subst hx
      have : xs.length ≤ npos := by simp only [List.length_cons] at hlen; omega
      simp [stripSlash, substr, List.take_of_length_le this]
    · have : stripSlash (x :: xs) = x :: xs := by
        unfold stripSlash
        split
        · rename_i heq
          exact absurd (List.cons.inj heq).1 hx
        · rfl
      simp [this, hx]

/-- The positions `start` and `end` of lines 81 and 82 on a request with two
spaces, and the text between them. -/
theorem target_positions (a t b : Bytes) (ha : ' ' ∉ a) (ht : ' ' ∉ t)
    (hlen : (a ++ ' ' :: (t ++ ' ' :: b)).length < npos) :
    (find (a ++ ' ' :: (t ++ ' ' :: b)) [' '] 0 + 1) % 2 ^ 64 = a.length + 1 ∧
    find (a ++ ' ' :: (t ++ ' ' :: b)) [' '] (a.length + 1) = a.length + 1 + t.length ∧
    substr (a ++ ' ' :: (t ++ ' ' :: b)) (a.length + 1)
      ((a.length + 1 + t.length + 2 ^ 64 - (a.length + 1)) % 2 ^ 64) = t := by
  simp only [List.length_append, List.length_cons, npos] at hlen
  refine ⟨?_, ?_, ?_⟩
  · rw [find_zero, findFrom_char ' ' _ a 0 ha]
    omega
  · have hdrop : (a ++ ' ' :: (t ++ ' ' :: b)).drop (a.length + 1) = t ++ ' ' :: b := by
      rw [List.drop_append_eq_append_drop]
      simp
    unfold find
    rw [if_neg (by simp only [List.length_append, List.length_cons]; omega), hdrop,
      findFrom_char ' ' _ t _ ht]
  · have hdrop : (a ++ ' ' :: (t ++ ' ' :: b)).drop (a.length + 1) = t ++ ' ' :: b := by
      rw [List.drop_append_eq_append_drop]
      simp
    have hmod : (a.length + 1 + t.length + 2 ^ 64 - (a.length + 1)) % 2 ^ 64 = t.length := by
      omega
    unfold substr
    rw [hdrop, hmod]
    simp

/-- The classification of a header that begins with `GET` and has a first and a
second space, `t` being the text between them. -/
theorem parseRequest_target (fs : FileSystem) (a t b filename : Bytes)
    (hget : ['G', 'E', 'T'] <+: a ++ ' ' :: (t ++ ' ' :: b))
    (ha : ' ' ∉ a) (ht : ' ' ∉ t) (hlen : (a ++ ' ' :: (t ++ ' ' :: b)).length < npos) :
    parseRequest fs (a ++ ' ' :: (t ++ ' ' :: b)) filename =
      if ¬ regex_match (stripSlash t) validFilePattern then ⟨404, stripSlash t, []⟩
      else if fs ("data/".toList ++ stripSlash t) = none then
        ⟨404, stripSlash t, [.statCall ("data/".toList ++ stripSlash t)]⟩
      else ⟨200, stripSlash t, [.statCall ("data/".toList ++ stripSlash t)]⟩ := by
  obtain ⟨h1, h2, h3⟩ := target_positions a t b ha ht hlen
  have hget2 := (substr_three _).2 hget
  have htlen : t.length < npos := by
    simp only [List.length_append, List.length_cons] at hlen
    omega
  have hnp : ¬ (a.length + 1 = npos ∨ a.length + 1 + t.length = npos) := by
    simp only [List.length_append, List.length_cons] at hlen
    omega
  unfold parseRequest
  simp only [h1, h2, h3, hget2, ne_eq, not_true_eq_false, if_false, hnp]
  rw [strip_eq t htlen]

/-! ## The whitelist -/

theorem digit_of_range (d : Char) (h1 : '0' ≤ d) (h2 : d ≤ '9') : d ∈ digits := by
  have e : d = Char.ofNat d.toNat := (Char.ofNat_toNat d).symm
  have a1 : 48 ≤ d.toNat := Char.le_def.1 h1
  have a2 : d.toNat ≤ 57 := Char.le_def.1 h2
  generalize d.toNat = n at e a1 a2
  subst e
  interval_cases n <;> decide

theorem seqMatch_nil (s : Bytes) : seqMatch [] s = true ↔ s = [] := by
  cases s <;> simp [seqMatch]

theorem seqMatch_cons (a : Atom) (as : List Atom) (s : Bytes) :
    seqMatch (a :: as) s = true ↔
      ∃ c cs, s = c :: cs ∧ a.accepts c = true ∧ seqMatch as cs = true := by
  cases s with
  | nil => simp [seqMatch]
  | cons c cs =>
    simp only [seqMatch, Bool.and_eq_true, List.cons.injEq]
    constructor
    · intro h
      exact ⟨c, cs, ⟨rfl, rfl⟩, h⟩
    · rintro ⟨_, _, ⟨rfl, rfl⟩, h⟩
      exact h

/-- The regular expression of line 94 matches the twenty names of the whitelist
and nothing else. -/
theorem regex_match_iff (s : Bytes) :
    regex_match s validFilePattern = true ↔ s ∈ whitelist := by
  constructor
  · intro h
    simp only [regex_match, validFilePattern, List.any_cons, List.any_nil, Bool.or_false,
      Bool.or_eq_true, seqMatch_cons, seqMatch_nil, Atom.accepts, beq_iff_eq,
      Bool.and_eq_true, decide_eq_true_eq] at h
    rcases h with h | h
    · obtain ⟨c1, s1, rfl, rfl, c2, s2, rfl, rfl, c3, s3, rfl, rfl, c4, s4, rfl, rfl,
        d, s5, rfl, ⟨hd1, hd2⟩, c6, s6, rfl, rfl, c7, s7, rfl, rfl, c8, s8, rfl, rfl,
        c9, s9, rfl, rfl, c10, s10, rfl, rfl, rfl⟩ := h
      have hd := digit_of_range d hd1 hd2
      simp only [whitelist, fileNames, List.mem_append, List.mem_map]
      exact Or.inl ⟨d, hd, rfl⟩
    · obtain ⟨c1, s1, rfl, rfl, c2, s2, rfl, rfl, c3, s3, rfl, rfl, c4, s4, rfl, rfl,
        c5, s5, rfl, rfl, d, s6, rfl, ⟨hd1, hd2⟩, c7, s7, rfl, rfl, c8, s8, rfl, rfl,
        c9, s9, rfl, rfl, c10, s10, rfl, rfl, rfl⟩ := h
      have hd := digit_of_range d hd1 hd2
      simp only [whitelist, imageNames, List.mem_append, List.mem_map]
      exact Or.inr ⟨d, hd, rfl⟩
  · intro h
    simp only [whitelist, fileNames, imageNames, digits, List.map_cons, List.map_nil,
      List.mem_append, List.mem_cons, List.mem_nil_iff, or_false] at h
    rcases h with (h | h | h | h | h | h | h | h | h | h) |
      (h | h | h | h | h | h | h | h | h | h) <;> subst h <;> decide

/-! ## Sending a file -/

/-- The copy loop only appends to what the socket has received. -/
theorem copyLoop_extends (BUFFER_SIZE : Nat) :
    ∀ (fuel : Nat) (unread out : Bytes),
      ∃ body, copyLoop BUFFER_SIZE fuel unread out = out ++ body := by
  intro fuel
  induction fuel with
  | zero => intro unread out; exact ⟨[], by simp [copyLoop]⟩
  | succ n ih =>
    intro unread out
    by_cases hb : (unread.take BUFFER_SIZE).length > 0
    · obtain ⟨body, hbody⟩ := ih (unread.drop BUFFER_SIZE) (out ++ unread.take BUFFER_SIZE)
      refine ⟨unread.take BUFFER_SIZE ++ body, ?_⟩
      simp only [copyLoop, hb, if_true, hbody, List.append_assoc]
    · exact ⟨[], by simp only [copyLoop, hb, if_false, List.append_nil]⟩

/-- With a buffer of at least one byte, one iteration per byte of the file and
one more copy the whole file. -/
theorem copyLoop_eq (BUFFER_SIZE : Nat) (hB : 0 < BUFFER_SIZE) :
    ∀ (fuel : Nat) (unread out : Bytes), unread.length < fuel →
      copyLoop BUFFER_SIZE fuel unread out = out ++ unread := by
  intro fuel
  induction fuel with
  | zero => intro unread out h; omega
  | succ n ih =>
    intro unread out h
    by_cases hb : (unread.take BUFFER_SIZE).length > 0
    · have hlen : (unread.drop BUFFER_SIZE).length < n := by
        have hpos : 0 < unread.length := by
          rw [List.length_take] at hb
          omega
        rw [List.length_drop]
        omega
      simp only [copyLoop, hb, if_true]
      rw [ih _ _ hlen, List.append_assoc, List.take_append_drop]
    · have hnil : unread = [] := by
        rw [List.length_take] at hb
        have : unread.length = 0 := by omega
        exact List.length_eq_zero.1 this
      subst hnil
      simp [copyLoop]

theorem sendFile_absent (BUFFER_SIZE : Nat) (fsStat fsOpen : FileSystem) (out filename : Bytes)
    (h : fsStat ("data/".toList ++ filename) = none) :
    sendFile BUFFER_SIZE fsStat fsOpen out filename =
      ⟨send404 out, [.statCall ("data/".toList ++ filename)]⟩ := by
  unfold sendFile
  simp only [h]

/-- What `sendFile` writes for a file that `stat` finds: the header lines, and
the file as `open` finds it. -/
theorem sendFile_present (BUFFER_SIZE : Nat) (hB : 0 < BUFFER_SIZE)
    (fsStat fsOpen : FileSystem) (out filename statted : Bytes)
    (h : fsStat ("data/".toList ++ filename) = some statted) :
    (sendFile BUFFER_SIZE fsStat fsOpen out filename).out =
      out ++ successHeader (contentTypeOf filename) statted.length ++
        (fsOpen ("data/".toList ++ filename)).getD [] := by
  unfold sendFile
  simp only [h]
  cases ho : fsOpen ("data/".toList ++ filename) with
  | none =>
    simp [sendLine, successHeader, List.append_assoc]
  | some contents =>
    simp only [Option.getD_some]
    rw [copyLoop_eq BUFFER_SIZE hB _ _ _ (Nat.lt_succ_self _)]
    simp [sendLine, successHeader, List.append_assoc]

/-- The status line and the headers that `sendFile` writes for a file that
`stat` finds, whatever the buffer size. -/
theorem sendFile_header (BUFFER_SIZE : Nat) (fsStat fsOpen : FileSystem)
    (out filename statted : Bytes)
    (h : fsStat ("data/".toList ++ filename) = some statted) :
    ∃ body, (sendFile BUFFER_SIZE fsStat fsOpen out filename).out =
      out ++ successHeader (contentTypeOf filename) statted.length ++ body := by
  unfold sendFile
  simp only [h]
  cases ho : fsOpen ("data/".toList ++ filename) with
  | none =>
    exact ⟨[], by simp [sendLine, successHeader, List.append_assoc]⟩
  | some contents =>
    obtain ⟨body, hbody⟩ := copyLoop_extends BUFFER_SIZE (contents.length + 1) contents
      (sendLine (sendLine (sendLine (sendLine out "HTTP/1.0 200 OK".toList)
        ("Content-Type: ".toList ++ contentTypeOf filename))
        ("Content-Length: ".toList ++ to_string statted.length)) [])
    refine ⟨body, ?_⟩
    simp only [hbody]
    simp [sendLine, successHeader, List.append_assoc]

/-! ## Decimal numerals -/

theorem digitChar_mod (n : Nat) :
    Nat.digitChar (n % 10) ∈ digits ∧
      (Nat.digitChar (n % 10)).toNat - '0'.toNat = n % 10 ∧
      (n % 10 ≠ 0 → Nat.digitChar (n % 10) ≠ '0') := by
  have h : n % 10 < 10 := Nat.mod_lt _ (by decide)
  generalize n % 10 = m at h
  interval_cases m <;> decide

theorem foldl_decimal (ds : Bytes) :
    ∀ value : Nat,
      ds.foldl (fun value c => 10 * value + (c.toNat - '0'.toNat)) value =
        value * 10 ^ ds.length + decimalValue ds := by
  induction ds with
  | nil => intro value; simp [decimalValue]
  | cons d ds ih =>
    intro value
    unfold decimalValue
    rw [List.foldl_cons, List.foldl_cons, ih, ih (10 * 0 + _), List.length_cons]
    ring

theorem decimalValue_cons (d : Char) (ds : Bytes) :
    decimalValue (d :: ds) = (d.toNat - '0'.toNat) * 10 ^ ds.length + decimalValue ds := by
  unfold decimalValue
  rw [List.foldl_cons, foldl_decimal]
  simp [decimalValue]

/-- The digits that `Nat.toDigitsCore` puts in front of `ds` denote `n`. -/
theorem toDigitsCore_value :
    ∀ (fuel n : Nat) (ds : Bytes), n < fuel →
      decimalValue (Nat.toDigitsCore 10 fuel n ds) = n * 10 ^ ds.length + decimalValue ds := by
  intro fuel
  induction fuel with
  | zero => intro n ds h; omega
  | succ fuel ih =>
    intro n ds h
    have hd := (digitChar_mod n).2.1
    by_cases h0 : n / 10 = 0
    · simp only [Nat.toDigitsCore, h0, if_true]
      rw [decimalValue_cons, hd]
      have : n % 10 = n := by omega
      rw [this]
    · simp only [Nat.toDigitsCore, h0, if_false]
      rw [ih (n / 10) _ (by omega), decimalValue_cons, hd, List.length_cons]
      have := Nat.div_add_mod n 10
      calc n / 10 * 10 ^ (ds.length + 1) + (n % 10 * 10 ^ ds.length + decimalValue ds)
          = (10 * (n / 10) + n % 10) * 10 ^ ds.length + decimalValue ds := by ring
        _ = n * 10 ^ ds.length + decimalValue ds := by rw [this]

theorem toDigitsCore_digits :
    ∀ (fuel n : Nat) (ds : Bytes), (∀ c ∈ ds, c ∈ digits) →
      ∀ c ∈ Nat.toDigitsCore 10 fuel n ds, c ∈ digits := by
  intro fuel
  induction fuel with
  | zero => intro n ds h; simpa [Nat.toDigitsCore] using h
  | succ fuel ih =>
    intro n ds h
    have hd := (digitChar_mod n).1
    have hcons : ∀ c ∈ Nat.digitChar (n % 10) :: ds, c ∈ digits := by
      intro c hc
      rcases List.mem_cons.1 hc with rfl | hc
      · exact hd
      · exact h c hc
    by_cases h0 : n / 10 = 0
    · simp only [Nat.toDigitsCore, h0, if_true]
      exact hcons
    · simp only [Nat.toDigitsCore, h0, if_false]
      exact ih (n / 10) _ hcons

theorem toDigitsCore_head :
    ∀ (fuel n : Nat) (ds : Bytes), 0 < n → n < fuel →
      (Nat.toDigitsCore 10 fuel n ds).head? ≠ some '0' := by
  intro fuel
  induction fuel with
  | zero => intro n ds _ h; omega
  | succ fuel ih =>
    intro n ds hpos h
    by_cases h0 : n / 10 = 0
    · simp only [Nat.toDigitsCore, h0, if_true, List.head?_cons]
      have hne : n % 10 ≠ 0 := by omega
      intro hc
      exact (digitChar_mod n).2.2 hne (Option.some.inj hc)
    · simp only [Nat.toDigitsCore, h0, if_false]
      exact ih (n / 10) _ (Nat.pos_of_ne_zero h0) (by omega)

/-- The string `Nat.toDigits 10 n` is the decimal numeral of `n`: it is made of
ASCII digits, denotes `n` in base ten, and has no leading zero unless `n` is
zero. -/
theorem toDigits_decimal (n : Nat) :
    decimalValue (Nat.toDigits 10 n) = n ∧ (∀ c ∈ Nat.toDigits 10 n, c ∈ digits) ∧
      (n = 0 ∨ (Nat.toDigits 10 n).head? ≠ some '0') := by
  refine ⟨?_, ?_, ?_⟩
  · have := toDigitsCore_value (n + 1) n [] (Nat.lt_succ_self n)
    simpa [Nat.toDigits, decimalValue] using this
  · exact toDigitsCore_digits (n + 1) n [] (fun c hc => by simp at hc)
  · rcases Nat.eq_zero_or_pos n with h | h
    · exact Or.inl h
    · exact Or.inr (toDigitsCore_head (n + 1) n [] h (Nat.lt_succ_self n))

/-! ## Connections -/

/-- A connection whose header is classified `200` gets the success header and
the file. -/
theorem processConnection_served (BUFFER_SIZE : Nat) (hB : 0 < BUFFER_SIZE)
    (reads : List ReadResult) (quits : List Bool) (fs : FileSystem) (name B : Bytes)
    (calls : List FsCall) (hr : readHeader reads quits fs [] = ⟨200, name, calls⟩)
    (hfile : fs ("data/".toList ++ name) = some B) :
    (processConnection BUFFER_SIZE reads quits fs fs fs).out =
      successHeader (contentTypeOf name) B.length ++ B := by
  unfold processConnection
  simp only [hr, if_true]
  rw [sendFile_present BUFFER_SIZE hB fs fs [] name B hfile, hfile]
  simp

/-- A connection whose header is classified `404` gets the 404 response. -/
theorem processConnection_404 (BUFFER_SIZE : Nat) (reads : List ReadResult)
    (quits : List Bool) (fsHeader fsStat fsOpen : FileSystem)
    (hr : (readHeader reads quits fsHeader []).status = 404) :
    (processConnection BUFFER_SIZE reads quits fsHeader fsStat fsOpen).out = send404 [] := by
  unfold processConnection
  simp [hr]

/-- C1: for every digit `d`, if `data/file<d>.html` holds `B` throughout the
request, the shutdown flag stays clear and the connection delivers
`GET /file<d>.html HTTP/1.0` and the terminator, in whatever non-empty chunks,
then `processConnection` writes the 200 status line, `Content-Type: text/html`,
`Content-Length:` with the decimal numeral of the length of `B` (ASCII digits
that denote that length in base ten, without a leading zero), the blank line
and the bytes of `B`, and nothing else. -/
theorem C1_existing_file_is_served (BUFFER_SIZE : Nat) (hB : 0 < BUFFER_SIZE) (d : Char)
    (hd : d ∈ digits) (fs : FileSystem) (B : Bytes) (chunks : List Bytes)
    (quits : List Bool) (hne : nonEmptyChunks chunks) (hq : flagClear quits)
    (hs : chunks.flatten = "GET /file".toList ++ d :: ".html HTTP/1.0\r\n\r\n".toList)
    (hfile : fs ("data/file".toList ++ d :: ".html".toList) = some B) :
    (processConnection BUFFER_SIZE (chunks.map ReadResult.data) quits fs fs fs).out =
        "HTTP/1.0 200 OK\r\nContent-Type: text/html\r\nContent-Length: ".toList ++
          Nat.toDigits 10 B.length ++ "\r\n\r\n".toList ++ B ∧
      decimalValue (Nat.toDigits 10 B.length) = B.length ∧
      (∀ c ∈ Nat.toDigits 10 B.length, c ∈ digits) ∧
      (B.length = 0 ∨ (Nat.toDigits 10 B.length).head? ≠ some '0') := by
  refine ⟨?_, toDigits_decimal B.length⟩
  have facts : contentTypeOf ("file".toList ++ d :: ".html".toList) = "text/html".toList ∧
      ¬ CRLFCRLF <:+:
        ("GET /".toList ++ ("file".toList ++ d :: ".html".toList) ++ " HTTP/1.0".toList) ++
          CRLFCR ∧
      ' ' ∉ '/' :: ("file".toList ++ d :: ".html".toList) := by
    simp only [digits, List.mem_cons, List.mem_nil_iff, or_false] at hd
    rcases hd with rfl | rfl | rfl | rfl | rfl | rfl | rfl | rfl | rfl | rfl <;> decide
  obtain ⟨hct, hterm, hsp⟩ := facts
  have hw : "file".toList ++ d :: ".html".toList ∈ whitelist := by
    simp only [whitelist, fileNames, List.mem_append, List.mem_map]
    exact Or.inl ⟨d, hd, rfl⟩
  have hstream := readHeader_stream chunks quits fs []
    ("GET /".toList ++ ("file".toList ++ d :: ".html".toList) ++ " HTTP/1.0".toList) []
    hne hq (by rw [hs]; rfl) hterm (by simp [npos])
  have hparse := parseRequest_target fs ['G', 'E', 'T']
    ('/' :: ("file".toList ++ d :: ".html".toList)) "HTTP/1.0".toList []
    ⟨_, rfl⟩ (by decide) hsp (by simp [npos])
  have hrm := (regex_match_iff _).2 hw
  rw [show stripSlash ('/' :: ("file".toList ++ d :: ".html".toList)) =
    "file".toList ++ d :: ".html".toList from rfl] at hparse
  have hfile2 : fs ("data/".toList ++ ("file".toList ++ d :: ".html".toList)) = some B := hfile
  rw [if_neg (fun h => h hrm), if_neg (by rw [hfile2]; exact Option.some_ne_none B)] at hparse
  have hr : readHeader (chunks.map ReadResult.data) quits fs [] =
      ⟨200, "file".toList ++ d :: ".html".toList,
        [.statCall ("data/".toList ++ ("file".toList ++ d :: ".html".toList))]⟩ := by
    rw [hstream]
    exact hparse
  rw [processConnection_served BUFFER_SIZE hB _ quits fs _ B _ hr hfile2, hct]
  simp [successHeader, to_string]

theorem C1_existing_file_is_served_witness :
    (processConnection 1024
      (["GET /fi".toList, "le1.html HTTP/1.0\r\n\r".toList, "\n".toList].map ReadResult.data)
      [false, false, false] fsFile1 fsFile1 fsFile1).out =
        "HTTP/1.0 200 OK\r\nContent-Type: text/html\r\nContent-Length: 5\r\n\r\nhello".toList ∧
      decimalValue ['5'] = 5 ∧ (∀ c ∈ ['5'], c ∈ digits) ∧
      ("hello".toList.length = 0 ∨ ['5'].head? ≠ some '0') :=
  C1_existing_file_is_served 1024 (by decide) '1' (by decide) fsFile1 "hello".toList
    ["GET /fi".toList, "le1.html HTTP/1.0\r\n\r".toList, "\n".toList] [false, false, false]
    (by unfold nonEmptyChunks; decide) (by unfold flagClear; decide) (by decide) (by decide)

/-- C2: a complete header that begins with `GET` and has a first and a second
space, with a text between them that, one leading `/` removed, is none of the
twenty whitelisted names, makes `readHeader` return 404 without a look at the
file system; the file name handed back is that text. -/
theorem C2_unlisted_target_is_404 (chunks : List Bytes) (quits : List Bool)
    (fs : FileSystem) (filename a t b tail : Bytes)
    (hne : nonEmptyChunks chunks) (hq : flagClear quits)
    (hs : chunks.flatten = (a ++ ' ' :: (t ++ ' ' :: b)) ++ CRLFCRLF ++ tail)
    (hterm : ¬ CRLFCRLF <:+: (a ++ ' ' :: (t ++ ' ' :: b)) ++ CRLFCR)
    (hlen : (a ++ ' ' :: (t ++ ' ' :: b)).length < npos)
    (hget : ['G', 'E', 'T'] <+: a ++ ' ' :: (t ++ ' ' :: b))
    (ha : ' ' ∉ a) (ht : ' ' ∉ t) (hw : stripSlash t ∉ whitelist) :
    readHeader (chunks.map ReadResult.data) quits fs filename = ⟨404, stripSlash t, []⟩ := by
  rw [readHeader_stream chunks quits fs filename _ tail hne hq hs hterm hlen,
    parseRequest_target fs a t b filename hget ha ht hlen]
  have hrm : ¬ regex_match (stripSlash t) validFilePattern = true :=
    fun h => hw ((regex_match_iff _).1 h)
  rw [if_pos hrm]

theorem C2_unlisted_target_is_404_witness :
    readHeader [ReadResult.data "GET /../etc/passwd HTTP/1.0\r\n\r\n".toList] [] fsEverything []
        = ⟨404, "../etc/passwd".toList, []⟩ ∧
      readHeader [ReadResult.data "GET /file12.html HTTP/1.0\r\n\r\n".toList] [] fsEverything []
        = ⟨404, "file12.html".toList, []⟩ ∧
      readHeader [ReadResult.data "GET /image1.png HTTP/1.0\r\n\r\n".toList] [] fsEverything []
        = ⟨404, "image1.png".toList, []⟩ :=
  ⟨C2_unlisted_target_is_404 ["GET /../etc/passwd HTTP/1.0\r\n\r\n".toList] [] fsEverything []
      "GET".toList "/../etc/passwd".toList "HTTP/1.0".toList []
      (by unfold nonEmptyChunks; decide) (by unfold flagClear; decide) (by decide) (by decide)
      (by decide) (by decide) (by decide) (by decide) (by decide),
    C2_unlisted_target_is_404 ["GET /file12.html HTTP/1.0\r\n\r\n".toList] [] fsEverything []
      "GET".toList "/file12.html".toList "HTTP/1.0".toList []
      (by unfold nonEmptyChunks; decide) (by unfold flagClear; decide) (by decide) (by decide)
      (by decide) (by decide) (by decide) (by decide) (by decide),
    C2_unlisted_target_is_404 ["GET /image1.png HTTP/1.0\r\n\r\n".toList] [] fsEverything []
      "GET".toList "/image1.png".toList "HTTP/1.0".toList []
      (by unfold nonEmptyChunks; decide) (by unfold flagClear; decide) (by decide) (by decide)
      (by decide) (by decide) (by decide) (by decide) (by decide)⟩

/-- C3, at the failing input: the header `GETX /file1.html HTTP/1.0`, whose
method is not `GET`, is classified 200 when `data/file1.html` exists, and
`processConnection` serves the file. -/
theorem C3_getx_is_served :
    readHeader [ReadResult.data "GETX /file1.html HTTP/1.0\r\n\r\n".toList] [] fsFile1 [] =
        ⟨200, "file1.html".toList, [.statCall "data/file1.html".toList]⟩ ∧
      (processConnection 1024 [ReadResult.data "GETX /file1.html HTTP/1.0\r\n\r\n".toList] []
        fsFile1 fsFile1 fsFile1).out =
        "HTTP/1.0 200 OK\r\nContent-Type: text/html\r\nContent-Length: 5\r\n\r\nhello".toList := by
  decide

/-- C4: with the shutdown flag clear and the same file system, two ways of
cutting the same bytes into non-empty chunks, each followed by peer close, give
the same result of `readHeader`: status, file name and file system calls. -/
theorem C4_chunking_is_irrelevant (chunks1 chunks2 : List Bytes) (quits1 quits2 : List Bool)
    (fs : FileSystem) (filename : Bytes) (h1 : nonEmptyChunks chunks1)
    (h2 : nonEmptyChunks chunks2) (hq1 : flagClear quits1) (hq2 : flagClear quits2)
    (hs : chunks1.flatten = chunks2.flatten) :
    readHeader (chunks1.map ReadResult.data) quits1 fs filename =
      readHeader (chunks2.map ReadResult.data) quits2 fs filename := by
  rw [readHeader_chunks chunks1 quits1 fs filename h1 hq1,
    readHeader_chunks chunks2 quits2 fs filename h2 hq2, hs]

theorem C4_chunking_is_irrelevant_witness :
    readHeader (("GET /file1.html HTTP/1.0\r\n\r\n".toList.map fun c => [c]).map ReadResult.data)
        [] fsFile1 [] =
      readHeader [ReadResult.data "GET /file1.html HTTP/1.0\r\n\r\n".toList] [] fsFile1 [] :=
  C4_chunking_is_irrelevant ("GET /file1.html HTTP/1.0\r\n\r\n".toList.map fun c => [c])
    ["GET /file1.html HTTP/1.0\r\n\r\n".toList] [] [] fsFile1 []
    (by unfold nonEmptyChunks; decide) (by unfold nonEmptyChunks; decide)
    (by unfold flagClear; decide) (by unfold flagClear; decide) (by decide)

/-- C5, at the failing input: the request line `GET /file1.html` has a single
space, and the header line `Host: a b` that follows it supplies the second:
`readHeader` returns 404, with the text up to `Host:` as the file name.
Likewise a request line `GET` without any space takes its target from the
header line after it. -/
theorem C5_space_of_a_later_line_is_used :
    readHeader [ReadResult.data "GET /file1.html\r\nHost: a b\r\n\r\n".toList] [] fsFile1 [] =
        ⟨404, "file1.html\r\nHost:".toList, []⟩ ∧
      readHeader [ReadResult.data "GET\r\nX: /file1.html y\r\n\r\n".toList] [] fsFile1 [] =
        ⟨200, "file1.html".toList, [.statCall "data/file1.html".toList]⟩ := by
  decide

/-- C6: a complete header that begins with `GET` and whose target, one leading
`/` removed, is a whitelisted name for which `data/<name>` does not exist makes
`readHeader` return 404 (after the one `stat`), and `processConnection` writes
the 404 response. -/
theorem C6_absent_file_is_404 (BUFFER_SIZE : Nat) (chunks : List Bytes) (quits : List Bool)
    (fs fsStat fsOpen : FileSystem) (a t b tail : Bytes)
    (hne : nonEmptyChunks chunks) (hq : flagClear quits)
    (hs : chunks.flatten = (a ++ ' ' :: (t ++ ' ' :: b)) ++ CRLFCRLF ++ tail)
    (hterm : ¬ CRLFCRLF <:+: (a ++ ' ' :: (t ++ ' ' :: b)) ++ CRLFCR)
    (hlen : (a ++ ' ' :: (t ++ ' ' :: b)).length < npos)
    (hget : ['G', 'E', 'T'] <+: a ++ ' ' :: (t ++ ' ' :: b))
    (ha : ' ' ∉ a) (ht : ' ' ∉ t) (hw : stripSlash t ∈ whitelist)
    (habsent : fs ("data/".toList ++ stripSlash t) = none) :
    readHeader (chunks.map ReadResult.data) quits fs [] =
        ⟨404, stripSlash t, [.statCall ("data/".toList ++ stripSlash t)]⟩ ∧
      (processConnection BUFFER_SIZE (chunks.map ReadResult.data) quits fs fsStat fsOpen).out =
        send404 [] := by
  have hr : readHeader (chunks.map ReadResult.data) quits fs [] =
      ⟨404, stripSlash t, [.statCall ("data/".toList ++ stripSlash t)]⟩ := by
    rw [readHeader_stream chunks quits fs [] _ tail hne hq hs hterm hlen,
      parseRequest_target fs a t b [] hget ha ht hlen]
    have hrm := (regex_match_iff _).2 hw
    rw [if_neg (fun h => h hrm), if_pos habsent]
  exact ⟨hr, processConnection_404 BUFFER_SIZE _ quits fs fsStat fsOpen (by rw [hr])⟩

theorem C6_absent_file_is_404_witness :
    readHeader [ReadResult.data "GET /image3.jpg HTTP/1.0\r\n\r\n".toList] [] fsFile1 [] =
        ⟨404, "image3.jpg".toList, [.statCall "data/image3.jpg".toList]⟩ ∧
      (processConnection 1024 [ReadResult.data "GET /image3.jpg HTTP/1.0\r\n\r\n".toList] []
        fsFile1 fsFile1 fsFile1).out = send404 [] :=
  C6_absent_file_is_404 1024 ["GET /image3.jpg HTTP/1.0\r\n\r\n".toList] [] fsFile1 fsFile1
    fsFile1 "GET".toList "/image3.jpg".toList "HTTP/1.0".toList []
    (by unfold nonEmptyChunks; decide) (by unfold flagClear; decide) (by decide) (by decide)
    (by decide) (by decide) (by decide) (by decide) (by decide) (by decide)

/-- C7: with the shutdown flag clear, chunks whose concatenation holds no
`\r\n\r\n`, followed by peer close (the script ends) or by a read error, make
`readHeader` return 400 whatever the file system is and without a call on it;
the file name is left as it was. -/
theorem C7_incomplete_header_is_400 (chunks : List Bytes) (ending : List ReadResult)
    (quits : List Bool) (fs : FileSystem) (filename : Bytes)
    (hend : ending = [] ∨ ending.head? = some ReadResult.error) (hq : flagClear quits)
    (hno : ¬ CRLFCRLF <:+: chunks.flatten) :
    readHeader (chunks.map ReadResult.data ++ ending) quits fs filename =
      ⟨400, filename, []⟩ := by
  unfold readHeader
  rw [readLoop_clear _ _ _ hq, readLoop_incomplete ending hend chunks []
    (by simpa using find_without_occurrence _ _ hno)]

theorem C7_incomplete_header_is_400_witness :
    readHeader ([ReadResult.data "GET /file1.html HTTP/1.0\r\n".toList] ++ []) [] fsFile1 [] =
        ⟨400, [], []⟩ ∧
      readHeader ([ReadResult.data "GET /file1.html HTTP/1.0\r\n".toList] ++
        [ReadResult.error]) [] fsFile1 [] = ⟨400, [], []⟩ :=
  ⟨C7_incomplete_header_is_400 ["GET /file1.html HTTP/1.0\r\n".toList] [] [] fsFile1 []
      (Or.inl rfl) (by unfold flagClear; decide) (by decide),
    C7_incomplete_header_is_400 ["GET /file1.html HTTP/1.0\r\n".toList] [ReadResult.error] []
      fsFile1 [] (Or.inr rfl) (by unfold flagClear; decide) (by decide)⟩

/-! ## Validated file names -/

/-- A request classified 200 carries a name that the regular expression
matches and that `stat` found; that `stat` is the only file system call. -/
theorem parseRequest_200 (fs : FileSystem) (request filename : Bytes)
    (h : (parseRequest fs request filename).status = 200) :
    regex_match (parseRequest fs request filename).filename validFilePattern = true ∧
      fs ("data/".toList ++ (parseRequest fs request filename).filename) ≠ none ∧
      (parseRequest fs request filename).calls =
        [.statCall ("data/".toList ++ (parseRequest fs request filename).filename)] := by
  unfold parseRequest at h ⊢
  simp only at h ⊢
  split_ifs at h ⊢ <;> simp_all

/-- Every file system call of the classification is a `stat` of `data/`
followed by a name that the regular expression matches. -/
theorem parseRequest_calls (fs : FileSystem) (request filename : Bytes) :
    ∀ call ∈ (parseRequest fs request filename).calls,
      ∃ name, regex_match name validFilePattern = true ∧
        call = .statCall ("data/".toList ++ name) := by
  unfold parseRequest
  simp only
  split_ifs with h1 h2 h3 h4 <;> simp_all

theorem readHeader_200 (reads : List ReadResult) (quits : List Bool) (fs : FileSystem)
    (filename : Bytes) (h : (readHeader reads quits fs filename).status = 200) :
    regex_match (readHeader reads quits fs filename).filename validFilePattern = true ∧
      fs ("data/".toList ++ (readHeader reads quits fs filename).filename) ≠ none ∧
      (readHeader reads quits fs filename).calls =
        [.statCall ("data/".toList ++ (readHeader reads quits fs filename).filename)] := by
  unfold readHeader at h ⊢
  cases hl : readLoop reads quits [] with
  | none => simp [hl] at h
  | some request =>
    simp only [hl] at h ⊢
    exact parseRequest_200 fs request filename h

theorem readHeader_calls (reads : List ReadResult) (quits : List Bool) (fs : FileSystem)
    (filename : Bytes) :
    ∀ call ∈ (readHeader reads quits fs filename).calls,
      ∃ name, regex_match name validFilePattern = true ∧
        call = .statCall ("data/".toList ++ name) := by
  unfold readHeader
  cases hl : readLoop reads quits [] with
  | none => simp
  | some request => exact parseRequest_calls fs request filename

theorem sendFile_calls (BUFFER_SIZE : Nat) (fsStat fsOpen : FileSystem) (out filename : Bytes) :
    ∀ call ∈ (sendFile BUFFER_SIZE fsStat fsOpen out filename).calls,
      call = .statCall ("data/".toList ++ filename) ∨
        call = .openCall ("data/".toList ++ filename) := by
  intro call hc
  unfold sendFile at hc
  cases h1 : fsStat ("data/".toList ++ filename) with
  | none =>
    simp only [h1, List.mem_singleton] at hc
    exact Or.inl hc
  | some statted =>
    cases h2 : fsOpen ("data/".toList ++ filename) with
    | none =>
      simp only [h1, h2, List.mem_cons, List.mem_nil_iff, or_false] at hc
      exact hc
    | some contents =>
      simp only [h1, h2, List.mem_cons, List.mem_nil_iff, or_false] at hc
      exact hc

/-- No whitelisted name holds a `/` or two dots in a row. -/
theorem whitelist_plain : ∀ name ∈ whitelist, '/' ∉ name ∧ ¬ ['.', '.'] <:+: name := by
  decide

/-- C8: when `readHeader` returns 200 the file name it hands back is one of the
twenty whitelisted names, so it holds no `/` and no `..`, and `data/<name>`
existed at the `stat` of `readHeader`; and every path that `processConnection`
passes to `stat` or `open` is `data/` followed by a whitelisted name. -/
theorem C8_validated_filename (BUFFER_SIZE : Nat) (reads : List ReadResult)
    (quits : List Bool) (fs fsStat fsOpen : FileSystem) (filename : Bytes) :
    ((readHeader reads quits fs filename).status = 200 →
      (readHeader reads quits fs filename).filename ∈ whitelist ∧
      '/' ∉ (readHeader reads quits fs filename).filename ∧
      ¬ ['.', '.'] <:+: (readHeader reads quits fs filename).filename ∧
      fs ("data/".toList ++ (readHeader reads quits fs filename).filename) ≠ none) ∧
    ∀ call ∈ (processConnection BUFFER_SIZE reads quits fs fsStat fsOpen).calls,
      ∃ name ∈ whitelist, call = .statCall ("data/".toList ++ name) ∨
        call = .openCall ("data/".toList ++ name) := by
  constructor
  · intro h
    obtain ⟨hrm, hfs, _⟩ := readHeader_200 reads quits fs filename h
    have hw := (regex_match_iff _).1 hrm
    exact ⟨hw, (whitelist_plain _ hw).1, (whitelist_plain _ hw).2, hfs⟩
  · have hhead : ∀ call ∈ (readHeader reads quits fs []).calls,
        ∃ name ∈ whitelist, call = .statCall ("data/".toList ++ name) ∨
          call = .openCall ("data/".toList ++ name) := by
      intro call hc
      obtain ⟨name, hrm, hcall⟩ := readHeader_calls reads quits fs [] call hc
      exact ⟨name, (regex_match_iff _).1 hrm, Or.inl hcall⟩
    intro call hc
    unfold processConnection at hc
    simp only at hc
    split_ifs at hc with h200 h400 h404
    · rcases List.mem_append.1 hc with h | h
      · exact hhead call h
      · obtain ⟨hrm, _, _⟩ := readHeader_200 reads quits fs [] h200
        exact ⟨_, (regex_match_iff _).1 hrm, sendFile_calls _ _ _ _ _ call h⟩
    · exact hhead call hc
    · exact hhead call hc
    · exact hhead call hc

theorem C8_validated_filename_witness :
    "file1.html".toList ∈ whitelist ∧ '/' ∉ "file1.html".toList ∧
      ¬ ['.', '.'] <:+: "file1.html".toList ∧
      fsFile1 ("data/".toList ++ "file1.html".toList) ≠ none :=
  (C8_validated_filename 1024 [ReadResult.data "GET /file1.html HTTP/1.0\r\n\r\n".toList] []
    fsFile1 fsFile1 fsFile1 []).1 (by decide)

/-! ## The content type -/

/-- The searches of lines 166 and 168 succeed exactly when `.html`, or `.jpg`,
occurs somewhere in the file name. -/
theorem contentTypeOf_eq (filename : Bytes) (hlen : filename.length < npos) :
    contentTypeOf filename =
      if ".html".toList <:+: filename then "text/html".toList
      else if ".jpg".toList <:+: filename then "image/jpeg".toList
      else "application/octet-stream".toList := by
  unfold contentTypeOf
  by_cases h1 : ".html".toList <:+: filename
  · rw [if_pos (find_with_occurrence _ _ h1 hlen), if_pos h1]
  · rw [if_neg (by simpa using find_without_occurrence _ _ h1), if_neg h1]
    by_cases h2 : ".jpg".toList <:+: filename
    · rw [if_pos (find_with_occurrence _ _ h2 hlen), if_pos h2]
    · rw [if_neg (by simpa using find_without_occurrence _ _ h2), if_neg h2]

theorem reports_successHeader (contentType reported body : Bytes) (size : Nat) :
    reportsContentType (successHeader contentType size ++ body) reported ↔
      reported ++ "\r\n".toList <+:
        contentType ++ ("\r\nContent-Length: ".toList ++ to_string size ++
          "\r\n\r\n".toList ++ body) := by
  unfold reportsContentType successHeader
  simp only [List.append_assoc]
  exact List.prefix_append_right_inj _

/-- C9, the counterexample: `a.html.jpg` ends in `.jpg` and not in `.html`, and
`a.htmlx` ends in neither, yet `sendFile` announces both as `text/html`. -/
theorem C9_extension_is_not_what_decides :
    (".jpg".toList <:+ "a.html.jpg".toList ∧ ¬ ".html".toList <:+ "a.html.jpg".toList ∧
      (sendFile 1024 fsOdd fsOdd [] "a.html.jpg".toList).out =
        "HTTP/1.0 200 OK\r\nContent-Type: text/html\r\nContent-Length: 3\r\n\r\nabc".toList) ∧
    (¬ ".jpg".toList <:+ "a.htmlx".toList ∧ ¬ ".html".toList <:+ "a.htmlx".toList ∧
      (sendFile 1024 fsOdd fsOdd [] "a.htmlx".toList).out =
        "HTTP/1.0 200 OK\r\nContent-Type: text/html\r\nContent-Length: 3\r\n\r\nabc".toList) := by
  decide

/-- C9, amended: for a file name for which `data/<filename>` exists, the
`Content-Type` header written by `sendFile` is `text/html` when `.html` occurs
anywhere in the name, otherwise `image/jpeg` when `.jpg` occurs anywhere in it,
and `application/octet-stream` otherwise. -/
theorem C9_content_type_by_occurrence (BUFFER_SIZE : Nat) (fsStat fsOpen : FileSystem)
    (filename statted : Bytes) (hstat : fsStat ("data/".toList ++ filename) = some statted)
    (hlen : filename.length < npos) :
    reportsContentType (sendFile BUFFER_SIZE fsStat fsOpen [] filename).out
      (if ".html".toList <:+: filename then "text/html".toList
       else if ".jpg".toList <:+: filename then "image/jpeg".toList
       else "application/octet-stream".toList) := by
  obtain ⟨body, hbody⟩ := sendFile_header BUFFER_SIZE fsStat fsOpen [] filename statted hstat
  rw [hbody, List.nil_append, reports_successHeader, ← contentTypeOf_eq filename hlen]
  refine ⟨"Content-Length: ".toList ++ to_string statted.length ++ "\r\n\r\n".toList ++ body, ?_⟩
  simp

theorem C9_content_type_by_occurrence_witness :
    reportsContentType (sendFile 1024 fsOdd fsOdd [] "a.html.jpg".toList).out
      (if ".html".toList <:+: "a.html.jpg".toList then "text/html".toList
       else if ".jpg".toList <:+: "a.html.jpg".toList then "image/jpeg".toList
       else "application/octet-stream".toList) :=
  C9_content_type_by_occurrence 1024 fsOdd fsOdd "a.html.jpg".toList "abc".toList
    (by decide) (by decide)

/-- The content type of each whitelisted name. -/
theorem whitelist_contentType : ∀ name ∈ whitelist,
    (contentTypeOf name = "text/html".toList ∧ name ∈ fileNames ∧ name ∉ imageNames) ∨
      (contentTypeOf name = "image/jpeg".toList ∧ name ∈ imageNames ∧ name ∉ fileNames) := by
  decide

/-- C10: for a name that the regular expression of `readHeader` matches and
that `stat` finds, `sendFile` reports `Content-Type: text/html` exactly when the
name is a `file<d>.html`, `Content-Type: image/jpeg` exactly when it is an
`image<d>.jpg`, and never `Content-Type: application/octet-stream`. -/
theorem C10_validated_content_type (BUFFER_SIZE : Nat) (fsStat fsOpen : FileSystem)
    (name statted : Bytes) (hm : regex_match name validFilePattern = true)
    (hstat : fsStat ("data/".toList ++ name) = some statted) :
    (reportsContentType (sendFile BUFFER_SIZE fsStat fsOpen [] name).out "text/html".toList ↔
        name ∈ fileNames) ∧
      (reportsContentType (sendFile BUFFER_SIZE fsStat fsOpen [] name).out "image/jpeg".toList ↔
        name ∈ imageNames) ∧
      ¬ reportsContentType (sendFile BUFFER_SIZE fsStat fsOpen [] name).out
        "application/octet-stream".toList := by
  obtain ⟨body, hbody⟩ := sendFile_header BUFFER_SIZE fsStat fsOpen [] name statted hstat
  rw [hbody, List.nil_append]
  simp only [reports_successHeader]
  rcases whitelist_contentType name ((regex_match_iff name).1 hm) with
    ⟨hct, hin, hout⟩ | ⟨hct, hin, hout⟩
  · rw [hct]
    simp [hin, hout]
  · rw [hct]
    simp [hin, hout]

theorem C10_validated_content_type_witness :
    (reportsContentType (sendFile 1024 fsEverything fsEverything [] "image3.jpg".toList).out
        "text/html".toList ↔ "image3.jpg".toList ∈ fileNames) ∧
      (reportsContentType (sendFile 1024 fsEverything fsEverything [] "image3.jpg".toList).out
        "image/jpeg".toList ↔ "image3.jpg".toList ∈ imageNames) ∧
      ¬ reportsContentType (sendFile 1024 fsEverything fsEverything [] "image3.jpg".toList).out
        "application/octet-stream".toList :=
  C10_validated_content_type 1024 fsEverything fsEverything "image3.jpg".toList []
    (by decide) (by decide)

/-! ## The error responses and the dispatch -/

set_option maxRecDepth 20000

/-- C11: `send400` and `send404` write exactly the bytes of the 400 and of the
404 response, after whatever the socket has received; each response is four
lines (status line, `Content-Type: text/html`, empty line, one line of HTML),
every line followed by CR LF, and holds no `Content-Length`. -/
theorem C11_error_responses (out : Bytes) :
    send400 out = out ++ response400 ∧ send404 out = out ++ response404 ∧
      response400 = crlfLines ["HTTP/1.0 400 Bad Request".toList,
        "Content-Type: text/html".toList, [],
        ("<html><body><h1>400 Bad Request</h1><p>Your browser sent a request that " ++
          "this server could not understand.</p></body></html>").toList] ∧
      response404 = crlfLines ["HTTP/1.0 404 Not Found".toList,
        "Content-Type: text/html".toList, [],
        ("<html><body><h1>404 Not Found</h1><p>The requested file was not found on " ++
          "this server.</p></body></html>").toList] ∧
      ¬ "Content-Length".toList <:+: response400 ∧
      ¬ "Content-Length".toList <:+: response404 := by
  refine ⟨?_, ?_, by decide, by decide, by decide, by decide⟩
  · have h : send400 [] = response400 := by decide
    rw [← h]
    simp [send400, sendLine, List.append_assoc]
  · have h : send404 [] = response404 := by decide
    rw [← h]
    simp [send404, sendLine, List.append_assoc]

/-- The classification yields one of the three status codes. -/
theorem parseRequest_status (fs : FileSystem) (request filename : Bytes) :
    (parseRequest fs request filename).status = 200 ∨
      (parseRequest fs request filename).status = 400 ∨
      (parseRequest fs request filename).status = 404 := by
  unfold parseRequest
  simp only
  split_ifs <;> simp

theorem readHeader_status (reads : List ReadResult) (quits : List Bool) (fs : FileSystem)
    (filename : Bytes) :
    (readHeader reads quits fs filename).status = 200 ∨
      (readHeader reads quits fs filename).status = 400 ∨
      (readHeader reads quits fs filename).status = 404 := by
  unfold readHeader
  cases readLoop reads quits [] with
  | none => simp
  | some request => exact parseRequest_status fs request filename

/-- The function `processConnection` written with the labels of its
`switch`. -/
theorem processConnection_switch (BUFFER_SIZE : Nat) (reads : List ReadResult)
    (quits : List Bool) (fsHeader fsStat fsOpen : FileSystem) :
    processConnection BUFFER_SIZE reads quits fsHeader fsStat fsOpen =
      match switchCase (readHeader reads quits fsHeader []).status with
      | .case200 =>
        ⟨0, (sendFile BUFFER_SIZE fsStat fsOpen [] (readHeader reads quits fsHeader []).filename).out,
          (readHeader reads quits fsHeader []).calls ++
            (sendFile BUFFER_SIZE fsStat fsOpen []
              (readHeader reads quits fsHeader []).filename).calls⟩
      | .case400 => ⟨0, send400 [], (readHeader reads quits fsHeader []).calls⟩
      | .case404 => ⟨0, send404 [], (readHeader reads quits fsHeader []).calls⟩
      | .caseDefault => ⟨0, send400 [], (readHeader reads quits fsHeader []).calls⟩ := by
  unfold processConnection switchCase
  simp only
  split_ifs <;> rfl

/-- C12: whatever the reads deliver, whatever the shutdown flag shows and
whatever the file system holds, `readHeader` returns 200, 400 or 404; the
`switch` of `processConnection` never takes its default label,
`processConnection` writes what exactly one of `sendFile`, `send400` and
`send404` writes, the one that the status selects, and it returns 0. -/
theorem C12_status_is_one_of_three (BUFFER_SIZE : Nat) (reads : List ReadResult)
    (quits : List Bool) (fsHeader fsStat fsOpen : FileSystem) (filename : Bytes) :
    ((readHeader reads quits fsHeader filename).status = 200 ∨
      (readHeader reads quits fsHeader filename).status = 400 ∨
      (readHeader reads quits fsHeader filename).status = 404) ∧
    switchCase (readHeader reads quits fsHeader []).status ≠ .caseDefault ∧
    (((readHeader reads quits fsHeader []).status = 200 ∧
        (processConnection BUFFER_SIZE reads quits fsHeader fsStat fsOpen).out =
          (sendFile BUFFER_SIZE fsStat fsOpen []
            (readHeader reads quits fsHeader []).filename).out) ∨
      ((readHeader reads quits fsHeader []).status = 400 ∧
        (processConnection BUFFER_SIZE reads quits fsHeader fsStat fsOpen).out = send400 []) ∨
      ((readHeader reads quits fsHeader []).status = 404 ∧
        (processConnection BUFFER_SIZE reads quits fsHeader fsStat fsOpen).out = send404 [])) ∧
    (processConnection BUFFER_SIZE reads quits fsHeader fsStat fsOpen).ret = 0 := by
  refine ⟨readHeader_status reads quits fsHeader filename, ?_, ?_, ?_⟩
  · rcases readHeader_status reads quits fsHeader [] with h | h | h <;>
      simp [switchCase, h]
  · rw [processConnection_switch]
    rcases readHeader_status reads quits fsHeader [] with h | h | h <;>
      simp [switchCase, h]
  · rw [processConnection_switch]
    rcases readHeader_status reads quits fsHeader [] with h | h | h <;>
      simp [switchCase, h]

/-- C16: when the `stat` of `data/<filename>` fails in `sendFile`, what
`sendFile` writes is what `send404` writes, the bytes of the 404 response, and
its only file system call is that `stat`: the file is not opened, and the bytes
written hold neither `200 OK` nor `Content-Length`. -/
theorem C16_vanished_file_is_404 (BUFFER_SIZE : Nat) (fsStat fsOpen : FileSystem)
    (out filename : Bytes) (hstat : fsStat ("data/".toList ++ filename) = none) :
    (sendFile BUFFER_SIZE fsStat fsOpen out filename).out = send404 out ∧
      (sendFile BUFFER_SIZE fsStat fsOpen out filename).out = out ++ response404 ∧
      (sendFile BUFFER_SIZE fsStat fsOpen out filename).calls =
        [.statCall ("data/".toList ++ filename)] ∧
      ¬ "200 OK".toList <:+: response404 ∧
      ¬ "Content-Length".toList <:+: response404 := by
  rw [sendFile_absent BUFFER_SIZE fsStat fsOpen out filename hstat]
  refine ⟨rfl, ?_, rfl, by decide, by decide⟩
  have h : send404 [] = response404 := by decide
  rw [← h]
  simp [send404, sendLine, List.append_assoc]

theorem C16_vanished_file_is_404_witness :
    (sendFile 1024 fsFile1 fsFile1 [] "file2.html".toList).out = send404 [] ∧
      (sendFile 1024 fsFile1 fsFile1 [] "file2.html".toList).out = [] ++ response404 ∧
      (sendFile 1024 fsFile1 fsFile1 [] "file2.html".toList).calls =
        [.statCall ("data/".toList ++ "file2.html".toList)] ∧
      ¬ "200 OK".toList <:+: response404 ∧
      ¬ "Content-Length".toList <:+: response404 :=
  C16_vanished_file_is_404 1024 fsFile1 fsFile1 [] "file2.html".toList (by decide)

/-! ## Requests with fewer than two spaces -/

/-- The values of `start` and `end` (lines 81 and 82) on a request with fewer
than two spaces: `start` is never `npos`, it is `0` when there is no space, and
`end` is `npos`. -/
theorem few_spaces_positions (request : Bytes) (hlen : request.length < npos)
    (hcount : request.count ' ' < 2) :
    (find request [' '] 0 + 1) % 2 ^ 64 ≠ npos ∧
      (' ' ∉ request → find request [' '] 0 = npos ∧ (find request [' '] 0 + 1) % 2 ^ 64 = 0) ∧
      find request [' '] ((find request [' '] 0 + 1) % 2 ^ 64) = npos := by
  by_cases hmem : ' ' ∈ request
  · obtain ⟨u, v, hreq, hu⟩ := List.eq_append_cons_of_mem hmem
    subst hreq
    have hv : ' ' ∉ v := by
      rw [List.count_append, List.count_cons_self] at hcount
      exact List.count_eq_zero.1 (by omega)
    simp only [List.length_append, List.length_cons, npos] at hlen
    have hfind : find (u ++ ' ' :: v) [' '] 0 = u.length := by
      rw [find_zero, findFrom_char ' ' v u 0 hu]
      omega
    have hstart : (u.length + 1) % 2 ^ 64 = u.length + 1 := by omega
    have hdrop : (u ++ ' ' :: v).drop (u.length + 1) = v := by
      rw [List.drop_append_eq_append_drop]
      simp
    refine ⟨?_, fun h => absurd hmem h, ?_⟩
    · rw [hfind, hstart]
      simp only [npos]
      omega
    · rw [hfind, hstart]
      unfold find
      rw [if_neg (by simp only [List.length_append, List.length_cons]; omega), hdrop]
      exact findFrom_char_none ' ' v _ hv
  · have hfind : find request [' '] 0 = npos := by
      rw [find_zero]
      exact findFrom_char_none ' ' request 0 hmem
    have hstart : (npos + 1) % 2 ^ 64 = 0 := by decide
    refine ⟨?_, fun _ => ⟨hfind, by rw [hfind, hstart]⟩, ?_⟩
    · rw [hfind, hstart]
      decide
    · rw [hfind, hstart]
      exact hfind

/-- C17: with `size_t` arithmetic modulo `2 ^ 64`, a complete header that
begins with `GET` and holds fewer than two spaces makes `readHeader` return
400. The test `start == npos` of line 83 is false on it (without any space,
the first search gives `npos` and `start` wraps to `0`); it is the second
search that gives `npos`. -/
theorem C17_fewer_than_two_spaces_is_400 (chunks : List Bytes) (quits : List Bool)
    (fs : FileSystem) (filename h tail : Bytes)
    (hne : nonEmptyChunks chunks) (hq : flagClear quits)
    (hs : chunks.flatten = h ++ CRLFCRLF ++ tail) (hterm : ¬ CRLFCRLF <:+: h ++ CRLFCR)
    (hlen : h.length < npos) (hget : ['G', 'E', 'T'] <+: h) (hcount : h.count ' ' < 2) :
    (find h [' '] 0 + 1) % 2 ^ 64 ≠ npos ∧
      (' ' ∉ h → find h [' '] 0 = npos ∧ (find h [' '] 0 + 1) % 2 ^ 64 = 0) ∧
      find h [' '] ((find h [' '] 0 + 1) % 2 ^ 64) = npos ∧
      readHeader (chunks.map ReadResult.data) quits fs filename = ⟨400, filename, []⟩ := by
  obtain ⟨h1, h2, h3⟩ := few_spaces_positions h hlen hcount
  refine ⟨h1, h2, h3, ?_⟩
  rw [readHeader_stream chunks quits fs filename h tail hne hq hs hterm hlen]
  unfold parseRequest
  simp only [(substr_three h).2 hget, ne_eq, not_true_eq_false, if_false, h3, or_true, if_true]

theorem C17_fewer_than_two_spaces_is_400_witness :
    (find "GET/file1.html".toList [' '] 0 + 1) % 2 ^ 64 ≠ npos ∧
      (' ' ∉ "GET/file1.html".toList → find "GET/file1.html".toList [' '] 0 = npos ∧
        (find "GET/file1.html".toList [' '] 0 + 1) % 2 ^ 64 = 0) ∧
      find "GET/file1.html".toList [' '] ((find "GET/file1.html".toList [' '] 0 + 1) % 2 ^ 64)
        = npos ∧
      readHeader (["GET/file1.html\r\n\r\n".toList].map ReadResult.data) [] fsFile1 [] =
        ⟨400, [], []⟩ :=
  C17_fewer_than_two_spaces_is_400 ["GET/file1.html\r\n\r\n".toList] [] fsFile1 []
    "GET/file1.html".toList [] (by unfold nonEmptyChunks; decide) (by unfold flagClear; decide)
    (by decide) (by decide) (by decide) (by decide) (by decide)

/-! ## Shutdown during the read loop -/

/-- The loop left through the shutdown flag hands on what it has read. -/
theorem readLoop_quit (rest : List ReadResult) (quitsTail : List Bool) :
    ∀ (chunks : List Bytes) (request : Bytes), nonEmptyChunks chunks →
      find (request ++ chunks.flatten) CRLFCRLF 0 = npos →
      readLoop (chunks.map ReadResult.data ++ rest)
        (List.replicate chunks.length false ++ true :: quitsTail) request =
        some (request ++ chunks.flatten) := by
  intro chunks
  induction chunks with
  | nil =>
    intro request _ _
    simp only [List.map_nil, List.nil_append, List.length_nil, List.replicate_zero,
      List.flatten_nil, List.append_nil]
    cases rest with
    | nil => rfl
    | cons r rs =>
      cases r with
      | data buffer => rfl
      | error => rfl
  | cons c cs ih =>
    intro request hne h
    have hc : c.length ≠ 0 := by
      have := hne c (by simp)
      simpa using this
    have hcs : nonEmptyChunks cs := fun x hx => hne x (by simp [hx])
    simp only [List.flatten_cons] at h
    have h1 : find (request ++ c) CRLFCRLF 0 = npos := by
      apply find_prefix_npos (request ++ c) cs.flatten
      simpa using h
    rw [List.map_cons, List.cons_append, readLoop_data, List.length_cons,
      List.replicate_succ, List.cons_append]
    simp only [List.headD_cons, Bool.false_eq_true, if_false, hc, List.tail_cons]
    rw [if_neg (by simpa using h1), ih (request ++ c) hcs (by simpa using h)]
    simp

/-- C18: when the shutdown flag is clear while the chunks arrive, none of which
completes a terminator, and is then seen set, `readHeader` classifies the bytes
read so far the way lines 76 to 106 classify a complete header; with the flag
set from the start nothing is read and the result is 400. -/
theorem C18_shutdown_mid_header (chunks : List Bytes) (rest : List ReadResult)
    (quitsTail : List Bool) (fs : FileSystem) (filename : Bytes)
    (hne : nonEmptyChunks chunks) (hno : ¬ CRLFCRLF <:+: chunks.flatten) :
    readHeader (chunks.map ReadResult.data ++ rest)
        (List.replicate chunks.length false ++ true :: quitsTail) fs filename =
        parseRequest fs chunks.flatten filename ∧
      readHeader rest (true :: quitsTail) fs filename = ⟨400, filename, []⟩ := by
  constructor
  · unfold readHeader
    rw [readLoop_quit rest quitsTail chunks [] hne
      (by simpa using find_without_occurrence _ _ hno)]
    rfl
  · have h := readLoop_quit rest quitsTail [] [] (fun _ hx => by simp at hx) (by decide)
    simp only [List.map_nil, List.nil_append, List.length_nil, List.replicate_zero,
      List.flatten_nil, List.append_nil] at h
    unfold readHeader
    rw [h]
    rfl

theorem C18_shutdown_mid_header_witness :
    readHeader [ReadResult.data "GET /file1.html HTTP/1.0\r\n".toList] [false, true] fsFile1 [] =
        ⟨200, "file1.html".toList, [.statCall "data/file1.html".toList]⟩ ∧
      (processConnection 1024 [ReadResult.data "GET /file1.html HTTP/1.0\r\n".toList]
        [false, true] fsFile1 fsFile1 fsFile1).out =
        "HTTP/1.0 200 OK\r\nContent-Type: text/html\r\nContent-Length: 5\r\n\r\nhello".toList ∧
      readHeader [] [true] fsFile1 [] = ⟨400, [], []⟩ :=
  ⟨(C18_shutdown_mid_header ["GET /file1.html HTTP/1.0\r\n".toList] [] [] fsFile1 []
      (by unfold nonEmptyChunks; decide) (by decide)).1.trans (by decide),
    by decide,
    (C18_shutdown_mid_header ["GET /file1.html HTTP/1.0\r\n".toList] [] [] fsFile1 []
      (by unfold nonEmptyChunks; decide) (by decide)).2⟩

/-! ## What follows the terminator, and the leading slash -/

/-- The search does not go past an occurrence of the pattern. -/
theorem findFrom_le_occurrence (pat w : Bytes) (hw : pat <+: w) :
    ∀ (u : Bytes) (i : Nat), findFrom pat (u ++ w) i ≤ i + u.length := by
  intro u
  induction u with
  | nil =>
    intro i
    have hp : pat.isPrefixOf w = true := (isPrefixOf_iff _ _).2 hw
    cases w with
    | nil => simp [findFrom, hp]
    | cons c cs => simp [findFrom, hp]
  | cons c cs ih =>
    intro i
    by_cases hp : pat.isPrefixOf (c :: (cs ++ w)) = true
    · rw [List.cons_append, findFrom_cons_pos _ _ _ _ hp]
      omega
    · rw [List.cons_append, findFrom_cons_neg _ _ _ _ hp, List.length_cons]
      have := ih (i + 1)
      omega

/-- C14: with the shutdown flag clear, two streams that agree up to and
including a terminator give the same result of `readHeader`, whatever follows
the terminator in each; the request that is classified is a part of the bytes
before that terminator. -/
theorem C14_bytes_after_terminator_are_discarded (h t1 t2 : Bytes) (chunks1 chunks2 : List Bytes)
    (quits1 quits2 : List Bool) (fs : FileSystem) (filename : Bytes)
    (hne1 : nonEmptyChunks chunks1) (hne2 : nonEmptyChunks chunks2)
    (hq1 : flagClear quits1) (hq2 : flagClear quits2)
    (hs1 : chunks1.flatten = h ++ CRLFCRLF ++ t1) (hs2 : chunks2.flatten = h ++ CRLFCRLF ++ t2)
    (hlen : h.length < npos) :
    readHeader (chunks1.map ReadResult.data) quits1 fs filename =
        readHeader (chunks2.map ReadResult.data) quits2 fs filename ∧
      ∃ k, k ≤ h.length ∧
        readHeader (chunks1.map ReadResult.data) quits1 fs filename =
          parseRequest fs (h.take k) filename := by
  have hk : find (h ++ CRLFCRLF) CRLFCRLF 0 ≤ h.length := by
    rw [find_zero]
    simpa using findFrom_le_occurrence CRLFCRLF CRLFCRLF (List.prefix_refl _) h 0
  have hfound : find (h ++ CRLFCRLF) CRLFCRLF 0 ≠ npos := by omega
  have key : ∀ (chunks : List Bytes) (quits : List Bool) (t : Bytes),
      nonEmptyChunks chunks → flagClear quits → chunks.flatten = h ++ CRLFCRLF ++ t →
      readHeader (chunks.map ReadResult.data) quits fs filename =
        parseRequest fs (h.take (find (h ++ CRLFCRLF) CRLFCRLF 0)) filename := by
    intro chunks quits t hne hq hs
    rw [readHeader_chunks chunks quits fs filename hne hq, hs,
      find_append (h ++ CRLFCRLF) t CRLFCRLF hfound, if_pos hfound]
    congr 1
    unfold substr
    rw [List.drop_zero, List.append_assoc, List.take_append_of_le_length hk]
  exact ⟨(key chunks1 quits1 t1 hne1 hq1 hs1).trans (key chunks2 quits2 t2 hne2 hq2 hs2).symm,
    _, hk, key chunks1 quits1 t1 hne1 hq1 hs1⟩

theorem C14_bytes_after_terminator_are_discarded_witness :
    readHeader (["GET /file1.html HTTP/1.0\r\n\r\n".toList].map ReadResult.data) [] fsFile1 [] =
        readHeader (["GET /file1.html HTTP/1.0\r\n\r\nGET /image2.jpg HTTP/1.0\r\n\r\n".toList].map
          ReadResult.data) [] fsFile1 [] ∧
      ∃ k, k ≤ "GET /file1.html HTTP/1.0".toList.length ∧
        readHeader (["GET /file1.html HTTP/1.0\r\n\r\n".toList].map ReadResult.data) [] fsFile1 []
          = parseRequest fsFile1 ("GET /file1.html HTTP/1.0".toList.take k) [] :=
  C14_bytes_after_terminator_are_discarded "GET /file1.html HTTP/1.0".toList []
    "GET /image2.jpg HTTP/1.0\r\n\r\n".toList ["GET /file1.html HTTP/1.0\r\n\r\n".toList]
    ["GET /file1.html HTTP/1.0\r\n\r\nGET /image2.jpg HTTP/1.0\r\n\r\n".toList] [] [] fsFile1 []
    (by unfold nonEmptyChunks; decide) (by unfold nonEmptyChunks; decide)
    (by unfold flagClear; decide) (by unfold flagClear; decide) (by decide) (by decide)
    (by decide)

/-- Facts about the request lines built from a whitelisted name. -/
theorem whitelist_request_facts : ∀ n ∈ whitelist,
    ' ' ∉ n ∧ stripSlash n = n ∧ '/' :: n ∉ whitelist ∧ n.length = 10 ∧
      ¬ CRLFCRLF <:+: "GET /".toList ++ n ++ " HTTP/1.0".toList ++ CRLFCR ∧
      ¬ CRLFCRLF <:+: "GET ".toList ++ n ++ " HTTP/1.0".toList ++ CRLFCR ∧
      ¬ CRLFCRLF <:+: "GET //".toList ++ n ++ " HTTP/1.0".toList ++ CRLFCR := by
  decide

/-- C15: for a whitelisted name `n`, the request lines `GET /n HTTP/1.0` and
`GET n HTTP/1.0` give the same result of `readHeader`, with file name `n` and
status 200 or 404 as `data/n` exists or not, while `GET //n HTTP/1.0` gives 404
with file name `/n` and no look at the file system: one leading `/` is removed,
and only one. -/
theorem C15_one_leading_slash (n : Bytes) (hn : n ∈ whitelist) (fs : FileSystem)
    (filename : Bytes) (chunks1 chunks2 chunks3 : List Bytes) (quits : List Bool)
    (hne1 : nonEmptyChunks chunks1) (hne2 : nonEmptyChunks chunks2)
    (hne3 : nonEmptyChunks chunks3) (hq : flagClear quits)
    (hs1 : chunks1.flatten = "GET /".toList ++ n ++ " HTTP/1.0".toList ++ CRLFCRLF)
    (hs2 : chunks2.flatten = "GET ".toList ++ n ++ " HTTP/1.0".toList ++ CRLFCRLF)
    (hs3 : chunks3.flatten = "GET //".toList ++ n ++ " HTTP/1.0".toList ++ CRLFCRLF) :
    readHeader (chunks1.map ReadResult.data) quits fs filename =
        ⟨if fs ("data/".toList ++ n) = none then 404 else 200, n,
          [.statCall ("data/".toList ++ n)]⟩ ∧
      readHeader (chunks2.map ReadResult.data) quits fs filename =
        readHeader (chunks1.map ReadResult.data) quits fs filename ∧
      readHeader (chunks3.map ReadResult.data) quits fs filename = ⟨404, '/' :: n, []⟩ := by
  obtain ⟨hsp, hstrip, hnot, hlen, ht1, ht2, ht3⟩ := whitelist_request_facts n hn
  have hrm : regex_match n validFilePattern = true := (regex_match_iff n).2 hn
  have hrm2 : ¬ regex_match ('/' :: n) validFilePattern = true :=
    fun h => hnot ((regex_match_iff _).1 h)
  have hsp1 : ' ' ∉ '/' :: n := by
    intro h
    rcases List.mem_cons.1 h with h | h
    · exact absurd h (by decide)
    · exact hsp h
  have hsp3 : ' ' ∉ '/' :: '/' :: n := by
    intro h
    rcases List.mem_cons.1 h with h | h
    · exact absurd h (by decide)
    · exact hsp1 h
  have r1 : readHeader (chunks1.map ReadResult.data) quits fs filename =
      ⟨if fs ("data/".toList ++ n) = none then 404 else 200, n,
        [.statCall ("data/".toList ++ n)]⟩ := by
    rw [readHeader_stream chunks1 quits fs filename
      ("GET /".toList ++ n ++ " HTTP/1.0".toList) [] hne1 hq (by simpa using hs1) ht1
      (by simp [hlen, npos])]
    have hp := parseRequest_target fs ['G', 'E', 'T'] ('/' :: n) "HTTP/1.0".toList filename
      ⟨_, rfl⟩ (by decide) hsp1 (by simp [hlen, npos])
    rw [show stripSlash ('/' :: n) = n from rfl, if_neg (fun h => h hrm)] at hp
    rw [show "GET /".toList ++ n ++ " HTTP/1.0".toList =
      ['G', 'E', 'T'] ++ ' ' :: ('/' :: n ++ ' ' :: "HTTP/1.0".toList) by simp, hp]
    by_cases hfs : fs ("data/".toList ++ n) = none
    · rw [if_pos hfs, if_pos hfs]
    · rw [if_neg hfs, if_neg hfs]
  have r2 : readHeader (chunks2.map ReadResult.data) quits fs filename =
      ⟨if fs ("data/".toList ++ n) = none then 404 else 200, n,
        [.statCall ("data/".toList ++ n)]⟩ := by
    rw [readHeader_stream chunks2 quits fs filename
      ("GET ".toList ++ n ++ " HTTP/1.0".toList) [] hne2 hq (by simpa using hs2) ht2
      (by simp [hlen, npos])]
    have hp := parseRequest_target fs ['G', 'E', 'T'] n "HTTP/1.0".toList filename
      ⟨_, rfl⟩ (by decide) hsp (by simp [hlen, npos])
    rw [hstrip, if_neg (fun h => h hrm)] at hp
    rw [show "GET ".toList ++ n ++ " HTTP/1.0".toList =
      ['G', 'E', 'T'] ++ ' ' :: (n ++ ' ' :: "HTTP/1.0".toList) by simp, hp]
    by_cases hfs : fs ("data/".toList ++ n) = none
    · rw [if_pos hfs, if_pos hfs]
    · rw [if_neg hfs, if_neg hfs]
  refine ⟨r1, r2.trans r1.symm, ?_⟩
  rw [readHeader_stream chunks3 quits fs filename
    ("GET //".toList ++ n ++ " HTTP/1.0".toList) [] hne3 hq (by simpa using hs3) ht3
    (by simp [hlen, npos])]
  have hp := parseRequest_target fs ['G', 'E', 'T'] ('/' :: '/' :: n) "HTTP/1.0".toList filename
    ⟨_, rfl⟩ (by decide) hsp3 (by simp [hlen, npos])
  rw [show stripSlash ('/' :: '/' :: n) = '/' :: n from rfl, if_pos hrm2] at hp
  rw [show "GET //".toList ++ n ++ " HTTP/1.0".toList =
    ['G', 'E', 'T'] ++ ' ' :: ('/' :: '/' :: n ++ ' ' :: "HTTP/1.0".toList) by simp, hp]

theorem C15_one_leading_slash_witness :
    readHeader (["GET /file1.html HTTP/1.0\r\n\r\n".toList].map ReadResult.data) [] fsFile1 [] =
        ⟨200, "file1.html".toList, [.statCall ("data/".toList ++ "file1.html".toList)]⟩ ∧
      readHeader (["GET file1.html HTTP/1.0\r\n\r\n".toList].map ReadResult.data) [] fsFile1 [] =
        readHeader (["GET /file1.html HTTP/1.0\r\n\r\n".toList].map ReadResult.data) []
          fsFile1 [] ∧
      readHeader (["GET //file1.html HTTP/1.0\r\n\r\n".toList].map ReadResult.data) []
        fsFile1 [] = ⟨404, '/' :: "file1.html".toList, []⟩ :=
  C15_one_leading_slash "file1.html".toList (by decide) fsFile1 []
    ["GET /file1.html HTTP/1.0\r\n\r\n".toList] ["GET file1.html HTTP/1.0\r\n\r\n".toList]
    ["GET //file1.html HTTP/1.0\r\n\r\n".toList] []
    (by unfold nonEmptyChunks; decide) (by unfold nonEmptyChunks; decide)
    (by unfold nonEmptyChunks; decide) (by unfold flagClear; decide)
    (by decide) (by decide) (by decide)

/-! ## Header lines after the request line -/

/-- A search that fails on `u` goes on behind `u` when the pattern cannot lie
across the end of `u`. -/
theorem findFrom_append_skip (pat w : Bytes) :
    ∀ (u : Bytes) (i : Nat), findFrom pat u i = npos → i + u.length < npos →
      (∀ j, j < u.length → u.length - j < pat.length → ¬ pat <+: (u ++ w).drop j) →
      findFrom pat (u ++ w) i = findFrom pat w (i + u.length) := by
  intro u
  induction u with
  | nil => intro i _ _ _; simp
  | cons c cs ih =>
    intro i h hlen hstr
    simp only [List.length_cons] at hlen
    have hp : ¬ pat.isPrefixOf (c :: cs) = true := by
      intro hp
      rw [findFrom_cons_pos _ _ _ _ hp] at h
      omega
    rw [findFrom_cons_neg _ _ _ _ hp] at h
    have hp2 : ¬ pat.isPrefixOf (c :: (cs ++ w)) = true := by
      intro hq
      have hq2 : pat <+: (c :: cs) ++ w := by simpa using (isPrefixOf_iff _ _).1 hq
      by_cases hl : pat.length ≤ (c :: cs).length
      · exact hp ((isPrefixOf_iff _ _).2
          (List.prefix_of_prefix_length_le hq2 (List.prefix_append _ _) hl))
      · exact hstr 0 (by simp) (by omega) (by simpa using hq2)
    have hrest : ∀ j, j < cs.length → cs.length - j < pat.length →
        ¬ pat <+: (cs ++ w).drop j := by
      intro j hj hjl
      have := hstr (j + 1) (by simpa using hj) (by simpa using hjl)
      simpa using this
    rw [List.cons_append, findFrom_cons_neg _ _ _ _ hp2, ih (i + 1) h (by omega) hrest,
      List.length_cons]
    congr 1
    omega

/-- No header terminator lies across the end of a request line, which ends in
`1.0`. -/
theorem request_line_end (p w : Bytes) :
    ∀ j, j < ("GET ".toList ++ p ++ " HTTP/1.0".toList).length →
      ("GET ".toList ++ p ++ " HTTP/1.0".toList).length - j < CRLFCRLF.length →
      ¬ CRLFCRLF <+: (("GET ".toList ++ p ++ " HTTP/1.0".toList) ++ w).drop j := by
  intro j hj hjl
  have hsplit : ("GET ".toList ++ p ++ " HTTP/1.0".toList) ++ w =
      ("GET ".toList ++ p ++ " HTTP/".toList) ++ ('1' :: '.' :: '0' :: w) := by simp
  have hl : ("GET ".toList ++ p ++ " HTTP/1.0".toList).length =
      ("GET ".toList ++ p ++ " HTTP/".toList).length + 3 := by simp
  rw [hl] at hj hjl
  obtain ⟨i, hi⟩ : ∃ i, j = ("GET ".toList ++ p ++ " HTTP/".toList).length + i :=
    ⟨j - ("GET ".toList ++ p ++ " HTTP/".toList).length, by
      simp only [CRLFCRLF, List.length_cons, List.length_nil] at hjl
      omega⟩
  have hi3 : i < 3 := by omega
  rw [hsplit, hi, List.drop_append]
  interval_cases i <;> simp [CRLFCRLF]

/-- The classification of the header of a stream that begins with a request
line `GET p HTTP/1.0` depends on `p` alone, whatever the stream goes on with up
to its first terminator. -/
theorem request_line_decides (fs : FileSystem) (p filename : Bytes) (hp : ' ' ∉ p) :
    ∃ result : HeaderResult, ∀ (chunks : List Bytes) (quits : List Bool) (H : Bytes),
      nonEmptyChunks chunks → flagClear quits →
      chunks.flatten = "GET ".toList ++ p ++ " HTTP/1.0\r\n".toList ++ H ++ CRLFCRLF →
      chunks.flatten.length < npos →
      readHeader (chunks.map ReadResult.data) quits fs filename = result := by
  by_cases hP : find ("GET ".toList ++ p ++ " HTTP/1.0".toList) CRLFCRLF 0 = npos
  · refine ⟨if ¬ regex_match (stripSlash p) validFilePattern then ⟨404, stripSlash p, []⟩
      else if fs ("data/".toList ++ stripSlash p) = none then
        ⟨404, stripSlash p, [.statCall ("data/".toList ++ stripSlash p)]⟩
      else ⟨200, stripSlash p, [.statCall ("data/".toList ++ stripSlash p)]⟩, ?_⟩
    intro chunks quits H hne hq hs hlen
    have hs2 : chunks.flatten = ("GET ".toList ++ p ++ " HTTP/1.0".toList) ++
        ("\r\n".toList ++ H ++ CRLFCRLF) := by
      rw [hs]
      simp
    rw [hs2] at hlen
    rw [readHeader_chunks chunks quits fs filename hne hq, hs2]
    have hlen2 := hlen
    rw [List.length_append] at hlen2
    have hskip : find (("GET ".toList ++ p ++ " HTTP/1.0".toList) ++
        ("\r\n".toList ++ H ++ CRLFCRLF)) CRLFCRLF 0 =
        findFrom CRLFCRLF ("\r\n".toList ++ H ++ CRLFCRLF)
          (0 + ("GET ".toList ++ p ++ " HTTP/1.0".toList).length) := by
      rw [find_zero]
      rw [find_zero] at hP
      exact findFrom_append_skip CRLFCRLF _ _ 0 hP (by omega) (request_line_end p _)
    have hfound : findFrom CRLFCRLF ("\r\n".toList ++ H ++ CRLFCRLF)
        (0 + ("GET ".toList ++ p ++ " HTTP/1.0".toList).length) ≠ npos :=
      findFrom_with_occurrence CRLFCRLF _ _ ⟨"\r\n".toList ++ H, [], by simp⟩ (by omega)
    have hge := findFrom_ge CRLFCRLF _ _ hfound
    have hle := findFrom_le CRLFCRLF _ _ hfound
    rw [hskip, if_pos hfound]
    generalize findFrom CRLFCRLF ("\r\n".toList ++ H ++ CRLFCRLF)
      (0 + ("GET ".toList ++ p ++ " HTTP/1.0".toList).length) = k at hfound hge hle
    have hk : k = ("GET ".toList ++ p ++ " HTTP/1.0".toList).length +
        (k - ("GET ".toList ++ p ++ " HTTP/1.0".toList).length) := by omega
    have hsub : substr (("GET ".toList ++ p ++ " HTTP/1.0".toList) ++
        ("\r\n".toList ++ H ++ CRLFCRLF)) 0 k =
        ['G', 'E', 'T'] ++ ' ' :: (p ++ ' ' :: ("HTTP/1.0".toList ++
          ("\r\n".toList ++ H ++ CRLFCRLF).take
            (k - ("GET ".toList ++ p ++ " HTTP/1.0".toList).length))) := by
      unfold substr
      rw [List.drop_zero, hk, List.take_append]
      simp
    rw [hsub]
    apply parseRequest_target fs ['G', 'E', 'T'] p _ filename ⟨_, rfl⟩ (by decide) hp
    rw [← hsub]
    unfold substr
    rw [List.drop_zero, List.length_take]
    omega
  · refine ⟨parseRequest fs (substr ("GET ".toList ++ p ++ " HTTP/1.0".toList) 0
      (find ("GET ".toList ++ p ++ " HTTP/1.0".toList) CRLFCRLF 0)) filename, ?_⟩
    intro chunks quits H hne hq hs _
    have hs2 : chunks.flatten = ("GET ".toList ++ p ++ " HTTP/1.0".toList) ++
        ("\r\n".toList ++ H ++ CRLFCRLF) := by
      rw [hs]
      simp
    rw [readHeader_chunks chunks quits fs filename hne hq, hs2,
      find_append _ _ CRLFCRLF hP, if_pos hP, substr_append _ _ _ (find_le _ _ hP)]

/-- C13: with the shutdown flag clear, two streams that begin with the same
request line `GET p HTTP/1.0`, `p` without a space, and go on with whatever
header lines up to the terminator give the same result of `readHeader`. -/
theorem C13_later_header_lines_are_ignored (p H1 H2 : Bytes) (chunks1 chunks2 : List Bytes)
    (quits1 quits2 : List Bool) (fs : FileSystem) (filename : Bytes)
    (hne1 : nonEmptyChunks chunks1) (hne2 : nonEmptyChunks chunks2)
    (hq1 : flagClear quits1) (hq2 : flagClear quits2)
    (hs1 : chunks1.flatten = "GET ".toList ++ p ++ " HTTP/1.0\r\n".toList ++ H1 ++ CRLFCRLF)
    (hs2 : chunks2.flatten = "GET ".toList ++ p ++ " HTTP/1.0\r\n".toList ++ H2 ++ CRLFCRLF)
    (hp : ' ' ∉ p) (hlen1 : chunks1.flatten.length < npos)
    (hlen2 : chunks2.flatten.length < npos) :
    readHeader (chunks1.map ReadResult.data) quits1 fs filename =
      readHeader (chunks2.map ReadResult.data) quits2 fs filename := by
  obtain ⟨result, hres⟩ := request_line_decides fs p filename hp
  rw [hres chunks1 quits1 H1 hne1 hq1 hs1 hlen1, hres chunks2 quits2 H2 hne2 hq2 hs2 hlen2]

theorem C13_later_header_lines_are_ignored_witness :
    readHeader (["GET /file1.html HTTP/1.0\r\nHost: x\r\n\r\n".toList].map ReadResult.data) []
        fsFile1 [] =
      readHeader (["GET /file1.html HTTP/1.0\r\nHost: a b\r\nX: /image2.jpg y\r\n\r\n".toList].map
        ReadResult.data) [] fsFile1 [] :=
  C13_later_header_lines_are_ignored "/file1.html".toList "Host: x".toList
    "Host: a b\r\nX: /image2.jpg y".toList ["GET /file1.html HTTP/1.0\r\nHost: x\r\n\r\n".toList]
    ["GET /file1.html HTTP/1.0\r\nHost: a b\r\nX: /image2.jpg y\r\n\r\n".toList] [] [] fsFile1 []
    (by unfold nonEmptyChunks; decide) (by unfold nonEmptyChunks; decide)
    (by unfold flagClear; decide) (by unfold flagClear; decide) (by decide) (by decide)
    (by decide) (by decide) (by decide)

end WebServer
